import Mathlib

/-!
# OpenHoW game manager: map manifests and the session lifecycle

A shallow embedding of `src/engine/game/game.cpp` (`MapManifest::Serialize` and the
`GameManager` member functions), followed by the properties proved about it.

Conventions of the embedding

* A pointer to a heap object (`Map*`, `BaseGameMode*`, `const AudioSample*`) is an
  `Option Handle`: `none` is `nullptr`, `some h` is the address of object `h`.
* Every externally visible action (log line, call into a collaborator, `new`, `delete`,
  file write) and every store into `active_map_`, `active_mode_` and `ambient_samples_`
  is appended to an effect trace, in program order.
* What the code obtains from collaborators whose sources are not part of the translated
  files (the config reader, the platform library, the audio manager, the terrain) is
  supplied by a `Platform` record, so every statement holds for each behaviour of them.
-/

set_option maxRecDepth 100000

namespace openhow

/-! ## Data model -/

/-- The address held by a non-null pointer. -/
abbrev Handle := Nat

/-- The colour type of the platform library; `Serialize` reads the components
`r`, `g` and `b` (8-bit channels). -/
structure PLColour where
  r : Nat
  g : Nat
  b : Nat
deriving DecidableEq, Repr

/-- A C `float`, kept as its IEEE-754 binary32 bit pattern. -/
structure CFloat where
  bits : Nat
deriving DecidableEq, Repr

/-- The fields of `MapManifest` that `game.cpp` reads or writes. -/
structure MapManifest where
  filepath : String
  filename : String
  name : String
  author : String
  description : String
  tile_directory : String
  modes : List String
  ambient_colour : PLColour
  sky_colour_top : PLColour
  sky_colour_bottom : PLColour
  sun_colour : PLColour
  sun_yaw : CFloat
  sun_pitch : CFloat
  fog_colour : PLColour
  fog_intensity : CFloat
  fog_distance : CFloat
  temperature : String
  weather : String
  time : String
deriving DecidableEq, Repr

/-! ## `MapManifest::Serialize` -/

/-- The `std::to_string` overload used for a colour channel (an 8-bit value promoted
to `int`): its decimal digits. -/
def to_string_int (n : Nat) : String := Nat.repr n

/-- The loop of lines 38-43: every mode between double quotes, a comma after each
one but the last. -/
def serializeModesLoop (modes : List String) : String :=
  String.join ((List.range modes.length).map fun i =>
    "\"" ++ modes.getD i "" ++ "\"" ++ (if i != modes.length - 1 then "," else ""))

/-- The three `std::to_string` calls of a colour, joined by single spaces. -/
def serializeColour (c : PLColour) : String :=
  to_string_int c.r ++ " " ++ to_string_int c.g ++ " " ++ to_string_int c.b

/-- The translation of `MapManifest::Serialize` (lines 30-76): the pieces are the
stream insertions in program order. `to_string_float` is `std::to_string(float)`. -/
def Serialize (to_string_float : CFloat → String) (m : MapManifest) : String :=
  String.join [
    "\x7b",
    "\"name\":\"", m.name, "\",",
    "\"author\":\"", m.author, "\",",
    "\"description\":\"", m.description, "\",",
    (if !m.modes.isEmpty then
      String.join ["\"modes\":[", serializeModesLoop m.modes, "],"]
    else ""),
    "\"ambientColour\":\"", serializeColour m.ambient_colour, "\",",
    "\"skyColourTop\":\"", serializeColour m.sky_colour_top, "\",",
    "\"skyColourBottom\":\"", serializeColour m.sky_colour_bottom, "\",",
    "\"sunColour\":\"", serializeColour m.sun_colour, "\",",
    "\"sunYaw\":\"", to_string_float m.sun_yaw, "\",",
    "\"sunPitch\":\"", to_string_float m.sun_pitch, "\",",
    "\"temperature\":\"", m.temperature, "\",",
    "\"weather\":\"", m.weather, "\",",
    "\"time\":\"", m.time, "\",",
    "\"fogColour\":\"", serializeColour m.fog_colour, "\",",
    "\"fogIntensity\":\"", to_string_float m.fog_intensity, "\",",
    "\"fogDistance\":\"", to_string_float m.fog_distance, "\"",
    "\x7d\n"]

/-! ## The game manager state, the effect trace and the collaborators -/

/-- One entry of the effect trace. -/
inductive Event where
  /-- Source `LogInfo` with the formatted message. -/
  | LogInfo (msg : String)
  /-- Source `LogWarn` with the formatted message. -/
  | LogWarn (msg : String)
  /-- Source `FrontEnd_Tick()`. -/
  | FrontEnd_Tick
  /-- Source `FrontEnd_SetState(FE_MODE_GAME)`. -/
  | FrontEnd_SetState_GAME
  /-- One call of `rand()` and the value it returned. -/
  | Rand (value : Nat)
  /-- One call of `plGenerateRandomf(max)` and the value it returned. -/
  | Randomf (max : Nat) (value : CFloat)
  /-- The call `active_map_->GetTerrain()->GetMaxHeight()` and its result. -/
  | GetMaxHeight (map : Option Handle) (value : CFloat)
  /-- Source `PlayLocalSound(sample, position, velocity, looping, volume)`: the sample,
  the three components of the position, the three of the velocity, the looping flag
  and the volume. -/
  | PlayLocalSound (sample : Handle) (x y z : CFloat) (vx vy vz : CFloat) (looping : Bool)
      (volume : CFloat)
  /-- Source `active_mode_->Tick()`. -/
  | ModeTick (mode : Handle)
  /-- Source `new Map(manifest)` returning the address `map`. -/
  | NewMap (manifest : MapManifest) (map : Handle)
  /-- Source `ActorManager::GetInstance()->DestroyActors()`. -/
  | DestroyActors
  /-- Source `ModelManager::GetInstance()->DestroyModels()`. -/
  | DestroyModels
  /-- Source `delete` of a `Map*`. -/
  | DeleteMap (map : Option Handle)
  /-- The store `active_map_ = map`. -/
  | StoreActiveMap (map : Option Handle)
  /-- Source `CacheSample(path, stream)` and the pointer it returned. -/
  | CacheSample (path : String) (stream : Bool) (result : Option Handle)
  /-- The store `ambient_samples_[idx] = sample`. -/
  | StoreAmbientSample (idx : Nat) (sample : Option Handle)
  /-- Source `new BaseGameMode()` returning the address `mode`. -/
  | NewMode (mode : Handle)
  /-- The store `active_mode_ = mode`. -/
  | StoreActiveMode (mode : Option Handle)
  /-- Source `active_mode_->StartRound()`. -/
  | StartRound (mode : Handle)
  /-- Source `delete` of an `AudioSample*`. -/
  | DeleteSample (sample : Option Handle)
  /-- Source `delete` of a `BaseGameMode*`. -/
  | DeleteMode (mode : Option Handle)
  /-- The descriptor text streamed into the file opened at `path`. -/
  | WriteFile (path : String) (text : String)
deriving DecidableEq, Repr

/-- The member variables of `GameManager`. `map_manifests_` is the `std::map` from
file name to manifest, kept as its sequence of entries in iteration order.
`ambient_samples_` is the array of `MAX_AMBIENT_SAMPLES` sample pointers, indexed
from 0. -/
structure GameManager where
  map_manifests_ : List (String × MapManifest)
  active_map_ : Option Handle
  active_mode_ : Option Handle
  ambient_samples_ : Nat → Option Handle
  ambient_emit_delay_ : Nat

/-- Everything the translated functions read or change: the manager, the tick counter
`g_state.sim_ticks`, the descriptor files on disk (path and text) and the effect
trace so far. -/
structure Engine where
  gm : GameManager
  sim_ticks : Nat
  files : List (String × String)
  trace : List Event

/-- The constants and collaborators that `game.cpp` uses and that are declared
elsewhere. A collaborator with internal state answers as a function of the effect
trace so far; a throwing call answers `Except.error` with the text of `e.what()`. -/
structure Platform where
  /-- Source `std::to_string(float)`. -/
  to_string_float : CFloat → String
  /-- Source `MAX_AMBIENT_SAMPLES`, the size of `ambient_samples_`. -/
  MAX_AMBIENT_SAMPLES : Nat
  /-- Source `TICKS_PER_SECOND`. -/
  TICKS_PER_SECOND : Nat
  /-- Source `TERRAIN_PIXEL_WIDTH`. -/
  TERRAIN_PIXEL_WIDTH : Nat
  /-- Source `rand()`. -/
  rand : List Event → Nat
  /-- Source `plGenerateRandomf(max)`. -/
  plGenerateRandomf : List Event → Nat → CFloat
  /-- Source `map->GetTerrain()->GetMaxHeight()`. -/
  GetMaxHeight : List Event → Option Handle → CFloat
  /-- The address returned by `new Map(manifest)`. -/
  new_Map : List Event → MapManifest → Handle
  /-- The address returned by `new BaseGameMode()`. -/
  new_BaseGameMode : List Event → Handle
  /-- Source `AudioManager::CacheSample(path, stream)`; `none` is a null result. -/
  CacheSample : List Event → String → Bool → Option Handle
  /-- Source `plGetFileName(path)`. -/
  plGetFileName : String → String
  /-- Source `plStripExtension(dest, length, in)`: the string left in `dest`. -/
  plStripExtension : Nat → String → String
  /-- The paths `plScanDirectory(path, extension, callback, false)` hands to the
  callback, in the order it does. -/
  plScanDirectory : List (String × String) → String → String → List String
  /-- Source `u_get_base_path()`. -/
  u_get_base_path : String
  /-- Source `u_get_mod_path()`. -/
  u_get_mod_path : String
  /-- Source `u_get_full_path()`. -/
  u_get_full_path : String
  /-- Whether `std::ofstream output(path)` ends up open. -/
  ofstream_is_open : List Event → String → Bool
  /-- The constructor `ScriptConfig(path)`, given the text of the file at `path`
  (`none` when there is no such file). -/
  ScriptConfig_ctor : Option String → Except String Unit
  /-- Source `ScriptConfig::GetStringProperty(property, default)` on the config built from
  the given file text. -/
  GetStringProperty : Option String → String → String → Except String String
  /-- Source `ScriptConfig::GetArrayStrings(property)`. -/
  GetArrayStrings : Option String → String → Except String (List String)
  /-- Source `ScriptConfig::GetColourProperty(property, default)`. -/
  GetColourProperty : Option String → String → PLColour → Except String PLColour
  /-- Source `ScriptConfig::GetFloatProperty(property, default)`. -/
  GetFloatProperty : Option String → String → CFloat → Except String CFloat
  /-- The default-constructed `MapManifest` (the member initialisers of game.h). -/
  default_manifest : MapManifest

/-- Append one event to the effect trace. -/
def emit (e : Engine) (ev : Event) : Engine :=
  { e with trace := e.trace ++ [ev] }

/-- The modulus of the `unsigned int` tick arithmetic. The tick counters of the engine
are `unsigned int` (pork_engine.c compares and adds to `g_state.draw_ticks` with an
`unsigned int` deadline in the same way), so a sum of ticks is kept modulo `2 ^ 32`. -/
def UINT_MODULUS : Nat := 2 ^ 32

/-! ## The manifest registry (`std::map` operations) -/

/-- The `std::map::find` lookup: the value stored under `name`, if any. -/
def mapFind (name : String) : List (String × MapManifest) → Option MapManifest
  | [] => none
  | (k, v) :: rest => if k = name then some v else mapFind name rest

/-- Placing a new entry at its position in key order. -/
def orderedInsert (key : String) (value : MapManifest) :
    List (String × MapManifest) → List (String × MapManifest)
  | [] => [(key, value)]
  | (k, v) :: rest =>
    if key < k then (key, value) :: (k, v) :: rest
    else (k, v) :: orderedInsert key value rest

/-- The `std::map::insert` of a pair: when the key is already present the container
is left as it is (the stored value is not replaced); a new key is added at its place
in key order. -/
def mapInsert (key : String) (value : MapManifest)
    (entries : List (String × MapManifest)) : List (String × MapManifest) :=
  if (mapFind key entries).isSome then entries else orderedInsert key value entries

/-- The file at `path`, if there is one. -/
def readFile (files : List (String × String)) (path : String) : Option String :=
  (files.find? fun f => f.1 = path).map Prod.snd

/-- Opening `path` for writing and streaming `text` into it: the file holds exactly
`text` afterwards. -/
def writeFile (files : List (String × String)) (path text : String) :
    List (String × String) :=
  (path, text) :: files.filter fun f => f.1 != path

/-! ## `GameManager` member functions -/

/-- The translation of `GameManager::GetMapManifest` (lines 217-225): the entry found,
or a warning and `none` for the null result. -/
def GetMapManifest (e : Engine) (name : String) : Engine × Option MapManifest :=
  match mapFind name e.gm.map_manifests_ with
  | some manifest => (e, some manifest)
  | none => (emit e (.LogWarn ("Failed to get manifest for \"" ++ name ++ "\"!\n")), none)

/-- The store `ambient_samples_[idx] = sample`. -/
def storeAmbientSample (e : Engine) (idx : Nat) (sample : Option Handle) : Engine :=
  emit { e with gm := { e.gm with
    ambient_samples_ := Function.update e.gm.ambient_samples_ idx sample } }
    (.StoreAmbientSample idx sample)

/-- One statement `ambient_samples_[idx++] = CacheSample(path, false)` of the loop
in `LoadMap`; the second component is `idx` after the increment. -/
def cacheSampleAt (P : Platform) (path : String) (st : Engine × Nat) : Engine × Nat :=
  let sample := P.CacheSample st.1.trace path false
  (storeAmbientSample (emit st.1 (.CacheSample path false sample)) st.2 sample, st.2 + 1)

/-- The body of the loop of lines 137-146 for one value of `i`. -/
def cacheLoopBody (P : Platform) (sample_ext : String) (st : Engine × Nat) (i : Nat) :
    Engine × Nat :=
  let st := if i < 3 then
      cacheSampleAt P ("audio/amb_" ++ to_string_int i ++ sample_ext ++ ".wav") st
    else st
  let st := cacheSampleAt P ("audio/batt_s" ++ to_string_int i ++ ".wav") st
  cacheSampleAt P ("audio/batt_l" ++ to_string_int i ++ ".wav") st

/-- The loop `for (unsigned int i = 1, idx = 0; i < 4; ++i)` of lines 137-146. -/
def cacheLoop (P : Platform) (sample_ext : String) (e : Engine) : Engine × Nat :=
  [1, 2, 3].foldl (cacheLoopBody P sample_ext) (e, 0)

/-- Lines 123-130 of `LoadMap`: the new map is constructed, the current session (when
`active_map_` is not null) loses its actors, its models and its map, and the new map
is stored in `active_map_`. -/
def loadMapInstall (P : Platform) (e : Engine) (manifest : MapManifest) : Engine :=
  let map := P.new_Map e.trace manifest
  let e := emit e (.NewMap manifest map)
  let e := if e.gm.active_map_ != none then
      emit (emit (emit e .DestroyActors) .DestroyModels) (.DeleteMap e.gm.active_map_)
    else e
  emit { e with gm := { e.gm with active_map_ := some map } } (.StoreActiveMap (some map))

/-- Lines 148-156 of `LoadMap`: the ambient deadline, the new game mode and its round
start, and the front-end state. -/
def loadMapStart (P : Platform) (e : Engine) : Engine :=
  let r := P.rand e.trace
  let e := emit e (.Rand r)
  let e := { e with gm := { e.gm with
    ambient_emit_delay_ := (e.sim_ticks + r % 100) % UINT_MODULUS } }
  let mode := P.new_BaseGameMode e.trace
  let e := emit e (.NewMode mode)
  let e := emit { e with gm := { e.gm with active_mode_ := some mode } }
    (.StoreActiveMode (some mode))
  let e := emit e (.StartRound mode)
  emit e .FrontEnd_SetState_GAME

/-- The translation of `GameManager::LoadMap` (lines 114-157): the manifest lookup
and its early return, then lines 123-130, the choice of `sample_ext` with the caching
loop (lines 132-146), and lines 148-156. -/
def LoadMap (P : Platform) (e : Engine) (name : String) : Engine :=
  match GetMapManifest e name with
  | (e, none) =>
    emit e (.LogWarn ("Failed to get map descriptor, \"" ++ name ++ "\"\n"))
  | (e, some manifest) =>
    let e := loadMapInstall P e manifest
    let sample_ext := if manifest.time != "day" then "n" else "d"
    let e := (cacheLoop P sample_ext e).1
    loadMapStart P e

/-- The `float` zero, the value of each component of the velocity `{0, 0, 0}`. -/
def FLOAT_ZERO : CFloat := ⟨0⟩

/-- The `float` literal `0.5f`. -/
def FLOAT_HALF : CFloat := ⟨0x3F000000⟩

/-- Lines 100-105 of `Tick`: the position (a random `x`, the terrain's maximum height,
a random `z`, evaluated in that order) and the playback request for `sample`, with the
velocity `{0, 0, 0}`, looping, at the volume `0.5f`. -/
def playAmbient (P : Platform) (e : Engine) (sample : Handle) : Engine :=
  let x := P.plGenerateRandomf e.trace P.TERRAIN_PIXEL_WIDTH
  let e := emit e (.Randomf P.TERRAIN_PIXEL_WIDTH x)
  let y := P.GetMaxHeight e.trace e.gm.active_map_
  let e := emit e (.GetMaxHeight e.gm.active_map_ y)
  let z := P.plGenerateRandomf e.trace P.TERRAIN_PIXEL_WIDTH
  let e := emit e (.Randomf P.TERRAIN_PIXEL_WIDTH z)
  emit e (.PlayLocalSound sample x y z FLOAT_ZERO FLOAT_ZERO FLOAT_ZERO true FLOAT_HALF)

/-- The ambient branch of `Tick` (lines 98-108), entered when
`ambient_emit_delay_ < g_state.sim_ticks`. -/
def tickAmbient (P : Platform) (e : Engine) : Engine :=
  let r := P.rand e.trace
  let e := emit e (.Rand r)
  let e := match e.gm.ambient_samples_ (r % P.MAX_AMBIENT_SAMPLES) with
    | none => e
    | some sample => playAmbient P e sample
  let r2 := P.rand e.trace
  let e := emit e (.Rand r2)
  { e with gm := { e.gm with ambient_emit_delay_ :=
      (e.sim_ticks + P.TICKS_PER_SECOND + r2 % (7 * P.TICKS_PER_SECOND)) % UINT_MODULUS } }

/-- The translation of `GameManager::Tick` (lines 90-112). -/
def Tick (P : Platform) (e : Engine) : Engine :=
  let e := emit e .FrontEnd_Tick
  match e.gm.active_mode_ with
  | none => e
  | some mode =>
    let e := if e.gm.ambient_emit_delay_ < e.sim_ticks then tickAmbient P e else e
    emit e (.ModeTick mode)

/-- The translation of `GameManager::UnloadMap` (lines 159-166): the three kinds of
`delete`, no member is assigned. -/
def UnloadMap (P : Platform) (e : Engine) : Engine :=
  let e := (List.range P.MAX_AMBIENT_SAMPLES).foldl
    (fun e i => emit e (.DeleteSample (e.gm.ambient_samples_ i))) e
  let e := emit e (.DeleteMode e.gm.active_mode_)
  emit e (.DeleteMap e.gm.active_map_)

/-- The assignments of the `try` block of `RegisterMapManifest` (lines 174-192), in
program order; each reads the config built from the file text `cfg` and can throw. -/
def manifestAssignments (P : Platform) (cfg : Option String) :
    List (MapManifest → Except String MapManifest) :=
  [ fun m => (P.GetStringProperty cfg "name" m.name).map fun v => { m with name := v },
    fun m => (P.GetStringProperty cfg "author" m.author).map fun v => { m with author := v },
    fun m => (P.GetStringProperty cfg "description" m.description).map
      fun v => { m with description := v },
    fun m => (P.GetStringProperty cfg "tileDirectory" m.tile_directory).map
      fun v => { m with tile_directory := v },
    fun m => (P.GetArrayStrings cfg "modes").map fun v => { m with modes := v },
    fun m => (P.GetColourProperty cfg "ambientColour" m.ambient_colour).map
      fun v => { m with ambient_colour := v },
    fun m => (P.GetColourProperty cfg "skyColourTop" m.sky_colour_top).map
      fun v => { m with sky_colour_top := v },
    fun m => (P.GetColourProperty cfg "skyColourBottom" m.sky_colour_bottom).map
      fun v => { m with sky_colour_bottom := v },
    fun m => (P.GetColourProperty cfg "sunColour" m.sun_colour).map
      fun v => { m with sun_colour := v },
    fun m => (P.GetFloatProperty cfg "sunYaw" m.sun_yaw).map fun v => { m with sun_yaw := v },
    fun m => (P.GetFloatProperty cfg "sunPitch" m.sun_pitch).map
      fun v => { m with sun_pitch := v },
    fun m => (P.GetStringProperty cfg "temperature" m.temperature).map
      fun v => { m with temperature := v },
    fun m => (P.GetStringProperty cfg "weather" m.weather).map fun v => { m with weather := v },
    fun m => (P.GetStringProperty cfg "time" m.time).map fun v => { m with time := v },
    fun m => (P.GetColourProperty cfg "fogColour" m.fog_colour).map
      fun v => { m with fog_colour := v },
    fun m => (P.GetFloatProperty cfg "fogIntensity" m.fog_intensity).map
      fun v => { m with fog_intensity := v },
    fun m => (P.GetFloatProperty cfg "fogDistance" m.fog_distance).map
      fun v => { m with fog_distance := v } ]

/-- Running the statements of a `try` block in order until one throws: the manifest as
assigned so far, and the text of the exception that ended the block, if one did. -/
def runUntilThrow :
    List (MapManifest → Except String MapManifest) → MapManifest → MapManifest × Option String
  | [], m => (m, none)
  | f :: fs, m =>
    match f m with
    | .ok m1 => runUntilThrow fs m1
    | .error what => (m, some what)

/-- The declaration `MapManifest manifest;` followed by the `try` block of lines
172-195, for the file text `cfg` found at the path. -/
def readManifest (P : Platform) (cfg : Option String) : MapManifest × Option String :=
  match P.ScriptConfig_ctor cfg with
  | .error what => (P.default_manifest, some what)
  | .ok _ => runUntilThrow (manifestAssignments P cfg) P.default_manifest

/-- The registry key of a descriptor path: `temp_buf` after line 198, a buffer of 64
bytes. -/
def manifestKey (P : Platform) (path : String) : String :=
  P.plStripExtension 64 (P.plGetFileName path)

/-- The manifest that `RegisterMapManifest(path)` hands to `insert`: what was read from
the file, with `filepath` and `filename` set (lines 200-201). -/
def manifestOfPath (P : Platform) (files : List (String × String)) (path : String) :
    MapManifest :=
  let manifest := (readManifest P (readFile files path)).1
  { manifest with filepath := path, filename := manifestKey P path }

/-- The translation of `GameManager::RegisterMapManifest` (lines 168-204). -/
def RegisterMapManifest (P : Platform) (e : Engine) (path : String) : Engine :=
  let e := emit e (.LogInfo ("Registering map \"" ++ path ++ "\"...\n"))
  let e := match (readManifest P (readFile e.files path)).2 with
    | some what =>
      emit e (.LogWarn ("Failed to read map config, \"" ++ path ++ "\"!\n" ++ what ++ "\n"))
    | none => e
  let entries :=
    mapInsert (manifestKey P path) (manifestOfPath P e.files path) e.gm.map_manifests_
  { e with gm := { e.gm with map_manifests_ := entries } }

/-- The translation of `GameManager::RegisterMapManifests` (lines 210-215). -/
def RegisterMapManifests (P : Platform) (e : Engine) : Engine :=
  let e := { e with gm := { e.gm with map_manifests_ := [] } }
  let scan_path := P.u_get_base_path ++ "/campaigns/" ++ P.u_get_mod_path ++ "/maps"
  (P.plScanDirectory e.files scan_path "map").foldl (RegisterMapManifest P) e

/-- Lines 235-243 of `CreateManifest` once the stream is open: the text goes into the
file at `path`. -/
def writeDescriptor (e : Engine) (path text : String) : Engine :=
  emit { e with files := writeFile e.files path text } (.WriteFile path text)

/-- The translation of `GameManager::CreateManifest` (lines 227-249); the second
component is the returned pointer, `none` for null. -/
def CreateManifest (P : Platform) (e : Engine) (name : String) :
    Engine × Option MapManifest :=
  match GetMapManifest e name with
  | (e, some _) => (emit e (.LogWarn "Unable to create map, it already exists!\n"), none)
  | (e, none) =>
    let path := P.u_get_full_path ++ "/maps/" ++ name ++ ".map"
    if !P.ofstream_is_open e.trace path then
      (emit e (.LogWarn ("Failed to write to \"" ++ path ++ "\", aborting!n\"\n")), none)
    else
      let text := Serialize P.to_string_float P.default_manifest
      let e := writeDescriptor e path text
      let e := emit e (.LogInfo ("Wrote \"" ++ path ++ "\"!\n"))
      let e := RegisterMapManifest P e path
      GetMapManifest e name

/-- The translation of `GameManager::CreateMapCommand` (lines 251-263); `argv` holds
the `argc` arguments. -/
def CreateMapCommand (P : Platform) (e : Engine) (argv : List String) : Engine :=
  if argv.length < 2 then emit e (.LogWarn "Invalid number of arguments, ignoring!\n")
  else
    match CreateManifest P e (argv.getD 1 "") with
    | (e, none) => e
    | (e, some _) => LoadMap P e (argv.getD 1 "")

/-- The translation of `GameManager::MapCommand` (lines 265-278); the local `mode`
is computed and not used. -/
def MapCommand (P : Platform) (e : Engine) (argv : List String) : Engine :=
  if argv.length < 2 then emit e (.LogWarn "Invalid number of arguments, ignoring!\n")
  else LoadMap P (GetMapManifest e (argv.getD 1 "")).1 (argv.getD 1 "")

/-- The text `out` built for one registry entry in `MapsCommand` (lines 288-295). -/
def mapsLine (entry : String × MapManifest) : String :=
  (List.range entry.2.modes.length).foldl
    (fun out i => out ++ ((if i == 0 then " " else ", ") ++ entry.2.modes.getD i ""))
    (entry.2.name ++ "/" ++ entry.1 ++ " : " ++ entry.2.description ++ " :")

/-- The translation of `GameManager::MapsCommand` (lines 280-300); the `%u` conversion
of the last line is given the number of entries and writes it in decimal. -/
def MapsCommand (e : Engine) : Engine :=
  if e.gm.map_manifests_.isEmpty then emit e (.LogWarn "No maps available!\n")
  else
    let e := e.gm.map_manifests_.foldl
      (fun e entry => emit e (.LogInfo (mapsLine entry ++ "\n"))) e
    emit e (.LogInfo (to_string_int e.gm.map_manifests_.length ++ " maps\n"))

/-- Modelled from the spec: the member initialisers of `GameManager` are in game.h,
which is not among the translated files. The spec's `Idle` state is the one with no
`active_map`/`active_mode`; the registry starts empty and the sample slots null. -/
def GameManager.initial : GameManager :=
  { map_manifests_ := [], active_map_ := none, active_mode_ := none,
    ambient_samples_ := fun _ => none, ambient_emit_delay_ := 0 }

/-! ## A concrete platform

One instance of `Platform`, used to evaluate the translated functions on concrete
inputs. The general statements below quantify over every platform. -/

/-- Division rounding to the nearest integer, ties to even. -/
def roundDiv (a b : Nat) : Nat :=
  let q := a / b
  let r := a % b
  if b < 2 * r ∨ (2 * r = b ∧ q % 2 = 1) then q + 1 else q

/-- Decimal digits of `n`, padded with zeros on the left to `width` characters. -/
def padDigits (width n : Nat) : String :=
  String.mk (List.replicate (width - (Nat.repr n).length) '0') ++ Nat.repr n

/-- The `%f` conversion behind `std::to_string(float)`, for a binary32 bit pattern:
sign, integer part, a point and six fractional digits of the exactly rounded value. -/
def printf_f (x : CFloat) : String :=
  let sign := if x.bits / 2 ^ 31 % 2 = 1 then "-" else ""
  let e := x.bits / 2 ^ 23 % 256
  let m := x.bits % 2 ^ 23
  if e = 255 then sign ++ (if m = 0 then "inf" else "nan")
  else
    let mant := if e = 0 then m else m + 2 ^ 23
    let p := if e = 0 then 1 else e
    let q := roundDiv (mant * 10 ^ 6 * 2 ^ p) (2 ^ 150)
    sign ++ Nat.repr (q / 10 ^ 6) ++ "." ++ padDigits 6 (q % 10 ^ 6)

/-- The binary32 bit pattern nearest to `n / d` (for `0 < d`), ties to even;
values too large become infinity. -/
def floatOfRatio (n d : Nat) : Nat :=
  let p := (((List.range 255).reverse.find? fun p => 1 ≤ p ∧ 2 ^ p * d ≤ n * 2 ^ 127).getD 1)
  min (roundDiv (n * 2 ^ 150) (d * 2 ^ p) + (p - 1) * 2 ^ 23) (255 * 2 ^ 23)

/-- The value of one decimal digit character. -/
def digitValue (c : Char) : Option Nat :=
  if c.isDigit then some (c.toNat - 48) else none

/-- The number written by a non-empty run of decimal digits. -/
def natOfDigits (cs : List Char) : Option Nat :=
  if cs.isEmpty then none
  else cs.foldl (fun acc c => acc.bind fun n => (digitValue c).map fun d => 10 * n + d) (some 0)

/-- Reading a decimal numeral `[-]digits[.digits]` as a binary32 value. -/
def floatOfText (text : String) : Option CFloat :=
  let cs := text.toList
  let negative := cs.head? = some '-'
  let body := if negative then cs.drop 1 else cs
  let whole := body.takeWhile (· != '.')
  let frac := (body.dropWhile (· != '.')).drop 1
  match natOfDigits (whole ++ frac) with
  | none => none
  | some n =>
    if whole.isEmpty then none
    else some ⟨(if negative then 2 ^ 31 else 0) + floatOfRatio n (10 ^ frac.length)⟩

/-- The pieces of `cs` between occurrences of `sep`. -/
def splitOnChar (sep : Char) (cs : List Char) : List (List Char) :=
  cs.foldr (fun c acc =>
    if c = sep then [] :: acc
    else match acc with
      | [] => [[c]]
      | piece :: rest => (c :: piece) :: rest) [[]]

/-- Reading `r g b` (three decimal numbers separated by single spaces) as a colour;
a channel keeps its low eight bits. -/
def colourOfText (text : String) : Option PLColour :=
  match (splitOnChar ' ' text.toList).map natOfDigits with
  | [some r, some g, some b] => some ⟨r % 256, g % 256, b % 256⟩
  | _ => none

/-- A value of a descriptor file: a string or an array of strings. -/
inductive ConfigValue where
  | str (text : String)
  | arr (items : List String)
deriving DecidableEq, Repr

/-- Where the descriptor scanner is in the text. -/
inductive ScanState where
  | start
  | wantKey (first : Bool)
  | inKey (acc : List Char)
  | wantColon (key : String)
  | wantValue (key : String)
  | inString (key : String) (acc : List Char)
  | wantItem (key : String) (items : List String) (first : Bool)
  | inItem (key : String) (items : List String) (acc : List Char)
  | afterItem (key : String) (items : List String)
  | afterValue
  | done
  | fail
deriving DecidableEq, Repr

/-- Blank characters, skipped between the tokens of a descriptor. -/
def isBlank (c : Char) : Bool := c = ' ' || c = '\n' || c = '\t' || c = '\r'

/-- One character of the descriptor scanner; the pairs read so far are kept in
reading order. -/
def scanStep (st : ScanState × List (String × ConfigValue)) (c : Char) :
    ScanState × List (String × ConfigValue) :=
  match st.1 with
  | .start => if c = '\x7b' then (.wantKey true, st.2) else if isBlank c then st else (.fail, st.2)
  | .wantKey first =>
    if c = '\x22' then (.inKey [], st.2)
    else if c = '\x7d' && first then (.done, st.2)
    else if isBlank c then st else (.fail, st.2)
  | .inKey acc => if c = '\x22' then (.wantColon (String.mk acc), st.2) else (.inKey (acc ++ [c]), st.2)
  | .wantColon key =>
    if c = ':' then (.wantValue key, st.2) else if isBlank c then st else (.fail, st.2)
  | .wantValue key =>
    if c = '\x22' then (.inString key [], st.2)
    else if c = '[' then (.wantItem key [] true, st.2)
    else if isBlank c then st else (.fail, st.2)
  | .inString key acc =>
    if c = '\x22' then (.afterValue, st.2 ++ [(key, .str (String.mk acc))])
    else (.inString key (acc ++ [c]), st.2)
  | .wantItem key items first =>
    if c = '\x22' then (.inItem key items [], st.2)
    else if c = ']' && first then (.afterValue, st.2 ++ [(key, .arr items)])
    else if isBlank c then st else (.fail, st.2)
  | .inItem key items acc =>
    if c = '\x22' then (.afterItem key (items ++ [String.mk acc]), st.2)
    else (.inItem key items (acc ++ [c]), st.2)
  | .afterItem key items =>
    if c = ',' then (.wantItem key items false, st.2)
    else if c = ']' then (.afterValue, st.2 ++ [(key, .arr items)])
    else if isBlank c then st else (.fail, st.2)
  | .afterValue =>
    if c = ',' then (.wantKey false, st.2)
    else if c = '\x7d' then (.done, st.2)
    else if isBlank c then st else (.fail, st.2)
  | .done => if isBlank c then st else (.fail, st.2)
  | .fail => st

/-- Modelled from the spec: the config reader (`ScriptConfig`, script_config.h) is
not among the translated files. A descriptor file is text of key/value pairs as
produced by `Serialize`: one object whose values are strings or arrays of strings.
The result is the pairs in reading order, or `none` for text of another shape. -/
def scanConfig (text : String) : Option (List (String × ConfigValue)) :=
  match text.toList.foldl scanStep (.start, []) with
  | (.done, pairs) => some pairs
  | _ => none

/-- The value a scanned descriptor gives to `key` (the first one, should it repeat). -/
def configLookup (cfg : Option String) (key : String) : Option ConfigValue :=
  match cfg.bind scanConfig with
  | none => none
  | some pairs => (pairs.find? fun kv => kv.1 = key).map Prod.snd

/-- Modelled from the spec: `GetStringProperty` of the absent config reader. A
missing key falls back to the default passed in; a value of the wrong kind throws. -/
def readString (cfg : Option String) (key : String) (dflt : String) : Except String String :=
  match configLookup cfg key with
  | none => .ok dflt
  | some (.str text) => .ok text
  | some (.arr _) => .error ("property is not a string: " ++ key)

/-- Modelled from the spec: `GetArrayStrings` of the absent config reader; a missing
key gives the empty sequence. -/
def readArray (cfg : Option String) (key : String) : Except String (List String) :=
  match configLookup cfg key with
  | none => .ok []
  | some (.arr items) => .ok items
  | some (.str _) => .error ("property is not an array: " ++ key)

/-- Modelled from the spec: `GetColourProperty` of the absent config reader; colours
are space-separated RGB triples written as strings. -/
def readColour (cfg : Option String) (key : String) (dflt : PLColour) :
    Except String PLColour :=
  match configLookup cfg key with
  | none => .ok dflt
  | some (.str text) =>
    match colourOfText text with
    | some c => .ok c
    | none => .error ("property is not a colour: " ++ key)
  | some (.arr _) => .error ("property is not a colour: " ++ key)

/-- Modelled from the spec: `GetFloatProperty` of the absent config reader, reading
the decimal numeral that `Serialize` writes. -/
def readFloat (cfg : Option String) (key : String) (dflt : CFloat) : Except String CFloat :=
  match configLookup cfg key with
  | none => .ok dflt
  | some (.str text) =>
    match floatOfText text with
    | some x => .ok x
    | none => .error ("property is not a number: " ++ key)
  | some (.arr _) => .error ("property is not a number: " ++ key)

/-- Modelled from the spec: the constructor of the absent config reader; it throws
when there is no file or its text is not a descriptor. -/
def openConfig (cfg : Option String) : Except String Unit :=
  match cfg.bind scanConfig with
  | none => .error "failed to load config"
  | some _ => .ok ()

/-- Modelled from the spec: `plGetFileName` belongs to the platform library, which is
not among the translated files. The base name of a path is what follows its last
slash. -/
def baseName (path : String) : String :=
  String.mk (path.toList.reverse.takeWhile (· != '/')).reverse

/-- Modelled from the spec: `plStripExtension` belongs to the platform library, which
is not among the translated files. The extension is what follows the last point of the
name, with that point; the result is a C string in a buffer of `length` bytes, so at
most `length - 1` characters are kept. -/
def stripExtension (length : Nat) (name : String) : String :=
  let cs := name.toList
  let stem := if cs.contains '.' then ((cs.reverse.dropWhile (· != '.')).drop 1).reverse else cs
  String.mk (stem.take (length - 1))

/-- A directory scan: the files directly inside `dir` whose name ends in the
extension, in the order the file list has them. -/
def scanDirectory (files : List (String × String)) (dir ext : String) : List String :=
  (files.map Prod.fst).filter fun path =>
    path = dir ++ "/" ++ baseName path && (baseName path).endsWith ("." ++ ext)

/-- Member initialisers of a default-constructed `MapManifest`, as an example. -/
def exampleDefaults : MapManifest :=
  { filepath := "", filename := "", name := "none", author := "none",
    description := "none", tile_directory := "", modes := [],
    ambient_colour := ⟨255, 255, 255⟩, sky_colour_top := ⟨0, 104, 156⟩,
    sky_colour_bottom := ⟨223, 255, 255⟩, sun_colour := ⟨255, 255, 255⟩,
    sun_yaw := ⟨0⟩, sun_pitch := ⟨0⟩, fog_colour := ⟨223, 255, 255⟩,
    fog_intensity := ⟨0x41F00000⟩, fog_distance := ⟨0x42C80000⟩,
    temperature := "normal", weather := "clear", time := "day" }

/-- The concrete platform: eight sample slots, 25 ticks in a second, addresses and
random draws that depend on the length of the trace only, and the spec-modelled helpers
above. -/
def examplePlatform : Platform :=
  { to_string_float := printf_f
    MAX_AMBIENT_SAMPLES := 8
    TICKS_PER_SECOND := 25
    TERRAIN_PIXEL_WIDTH := 2048
    rand := fun tr => (1103515245 * tr.length + 12345) % 2147483648
    plGenerateRandomf := fun tr _ => ⟨tr.length⟩
    GetMaxHeight := fun _ _ => ⟨0x42C80000⟩
    new_Map := fun tr _ => 1000 + tr.length
    new_BaseGameMode := fun tr => 1000 + tr.length
    CacheSample := fun tr _ _ => some (1000 + tr.length)
    plGetFileName := baseName
    plStripExtension := stripExtension
    plScanDirectory := scanDirectory
    u_get_base_path := "."
    u_get_mod_path := "how"
    u_get_full_path := "./campaigns/how"
    ofstream_is_open := fun _ _ => true
    ScriptConfig_ctor := openConfig
    GetStringProperty := readString
    GetArrayStrings := readArray
    GetColourProperty := readColour
    GetFloatProperty := readFloat
    default_manifest := exampleDefaults }

/-- An engine that has just been constructed: nothing registered, no session, tick 0,
no files, an empty trace. -/
def Engine.initial : Engine :=
  { gm := GameManager.initial, sim_ticks := 0, files := [], trace := [] }

/-- Two registered manifests and a running session: map 1, mode 2, the eight sample
slots filled with 10 to 17, an ambient deadline (5) that the tick counter (100) has
already passed. -/
def exampleSession : Engine :=
  { gm :=
      { map_manifests_ :=
          [("a", { exampleDefaults with filepath := "maps/a.map", filename := "a" }),
           ("b", { exampleDefaults with filepath := "maps/b.map", filename := "b",
                                        time := "night" })]
        active_map_ := some 1
        active_mode_ := some 2
        ambient_samples_ := fun i => if i < 8 then some (10 + i) else none
        ambient_emit_delay_ := 5 }
    sim_ticks := 100
    files := []
    trace := [] }

/-- The engine of `exampleSession` with no session: null map and mode, the sample
slots and the passed deadline kept. -/
def exampleIdle : Engine :=
  { exampleSession with gm := { exampleSession.gm with active_map_ := none, active_mode_ := none } }

/-! ## Vocabulary of the statements -/

/-- The eight sample paths in the order the spec lists them, for a manifest whose
`time` field is `time`: the day set for the exact string `day`, the night set for
every other value. -/
def specSamplePaths (time : String) : List String :=
  [ if time = "day" then "audio/amb_1d.wav" else "audio/amb_1n.wav",
    "audio/batt_s1.wav", "audio/batt_l1.wav",
    if time = "day" then "audio/amb_2d.wav" else "audio/amb_2n.wav",
    "audio/batt_s2.wav", "audio/batt_l2.wav",
    "audio/batt_s3.wav", "audio/batt_l3.wav" ]

/-- The effects of caching `paths` one after the other into the slots from `idx` on,
when the calls return `samples`: each request is followed by the store of its result. -/
def sampleEvents : Nat → List String → List (Option Handle) → List Event
  | idx, path :: paths, sample :: samples =>
    .CacheSample path false sample :: .StoreAmbientSample idx sample ::
      sampleEvents (idx + 1) paths samples
  | _, _, _ => []

/-- The sample array after storing `samples` into the slots from `idx` on. -/
def storeAll : Nat → List (Option Handle) → (Nat → Option Handle) → Nat → Option Handle
  | _, [], slots => slots
  | idx, sample :: samples, slots => storeAll (idx + 1) samples (Function.update slots idx sample)

/-- The statements `ambient_samples_[idx++] = CacheSample(path, false)` for each of
`paths` in turn. -/
def cacheAll (P : Platform) (paths : List String) (st : Engine × Nat) : Engine × Nat :=
  paths.foldl (fun st path => cacheSampleAt P path st) st

/-- The teardown effects of `LoadMap` in a state whose map pointer is `map`: none when
it is null. -/
def teardownEvents (map : Option Handle) : List Event :=
  if map != none then [.DestroyActors, .DestroyModels, .DeleteMap map] else []

/-- The effects that request a sample or store one into `ambient_samples_`. -/
def Event.isSampleEvent : Event → Bool
  | .CacheSample _ _ _ => true
  | .StoreAmbientSample _ _ => true
  | _ => false

/-- The slot index of a store into `ambient_samples_`. -/
def Event.storeIndex : Event → Option Nat
  | .StoreAmbientSample idx _ => some idx
  | _ => none

/-- The effects on maps and their dependents: construction, the three teardown
steps, and the store into `active_map_`. -/
def Event.isMapEvent : Event → Bool
  | .NewMap _ _ => true
  | .DestroyActors => true
  | .DestroyModels => true
  | .DeleteMap _ => true
  | .StoreActiveMap _ => true
  | _ => false

/-- The effects that destroy a game mode or release a sample. -/
def Event.isModeOrSampleRelease : Event → Bool
  | .DeleteMode _ => true
  | .DeleteSample _ => true
  | _ => false

/-- The session predicate of the data model: `active_map_` and `active_mode_` are
both null or both non-null. -/
def SessionUnit (gm : GameManager) : Prop :=
  gm.active_map_ = none ↔ gm.active_mode_ = none

/-- The states an engine can be in: it starts with the manager as constructed, and
every step is one of the manager's operations (with any argument) or a change made
from outside to the tick counter and the files. -/
inductive Reachable (P : Platform) : Engine → Prop where
  | start (ticks : Nat) (files : List (String × String)) :
    Reachable P { gm := GameManager.initial, sim_ticks := ticks, files := files, trace := [] }
  | outside {e : Engine} (ticks : Nat) (files : List (String × String)) :
    Reachable P e → Reachable P { e with sim_ticks := ticks, files := files }
  | loadMap {e : Engine} (name : String) : Reachable P e → Reachable P (LoadMap P e name)
  | unloadMap {e : Engine} : Reachable P e → Reachable P (UnloadMap P e)
  | tick {e : Engine} : Reachable P e → Reachable P (Tick P e)
  | registerMapManifest {e : Engine} (path : String) :
    Reachable P e → Reachable P (RegisterMapManifest P e path)
  | registerMapManifests {e : Engine} : Reachable P e → Reachable P (RegisterMapManifests P e)
  | createManifest {e : Engine} (name : String) :
    Reachable P e → Reachable P (CreateManifest P e name).1
  | createMapCommand {e : Engine} (argv : List String) :
    Reachable P e → Reachable P (CreateMapCommand P e argv)
  | mapCommand {e : Engine} (argv : List String) :
    Reachable P e → Reachable P (MapCommand P e argv)
  | mapsCommand {e : Engine} : Reachable P e → Reachable P (MapsCommand e)

/-- A text between double quotes. -/
def quoted (text : String) : String := "\"" ++ text ++ "\""

/-- The items of a sequence with a separator between neighbours. -/
def joinWith (sep : String) : List String → String
  | [] => ""
  | [item] => item
  | item :: next :: rest => item ++ sep ++ joinWith sep (next :: rest)

/-- The spec's encoding of a colour: its three components `r`, `g`, `b` in decimal,
separated by single spaces. -/
def specColour (c : PLColour) : String :=
  Nat.repr c.r ++ " " ++ Nat.repr c.g ++ " " ++ Nat.repr c.b

/-- The sixteen keys of the spec, in the spec's order, each with the text that encodes
the manifest field behind it: strings, colours and numbers between double quotes, the
modes as a bracketed sequence of quoted strings. -/
def specEntries (to_string_float : CFloat → String) (m : MapManifest) :
    List (String × String) :=
  [ ("name", quoted m.name),
    ("author", quoted m.author),
    ("description", quoted m.description),
    ("modes", "[" ++ joinWith "," (m.modes.map quoted) ++ "]"),
    ("ambientColour", quoted (specColour m.ambient_colour)),
    ("skyColourTop", quoted (specColour m.sky_colour_top)),
    ("skyColourBottom", quoted (specColour m.sky_colour_bottom)),
    ("sunColour", quoted (specColour m.sun_colour)),
    ("sunYaw", quoted (to_string_float m.sun_yaw)),
    ("sunPitch", quoted (to_string_float m.sun_pitch)),
    ("temperature", quoted m.temperature),
    ("weather", quoted m.weather),
    ("time", quoted m.time),
    ("fogColour", quoted (specColour m.fog_colour)),
    ("fogIntensity", quoted (to_string_float m.fog_intensity)),
    ("fogDistance", quoted (to_string_float m.fog_distance)) ]

/-- The canonical text of a sequence of key/value entries: an opening brace, every
entry once and in order as its quoted key, a colon and its value, commas between
entries, a closing brace and a newline. -/
def renderEntries (entries : List (String × String)) : String :=
  "\x7b" ++ joinWith "," (entries.map fun kv => quoted kv.1 ++ ":" ++ kv.2) ++ "\x7d\n"

/-- Whether `pat` is an initial segment of `text`. -/
def startsWithChars : List Char → List Char → Bool
  | [], _ => true
  | _ :: _, [] => false
  | p :: ps, c :: cs => p = c && startsWithChars ps cs

/-- The number of positions of `text` at which `pat` occurs. -/
def occurrencesChars (pat : List Char) : List Char → Nat
  | [] => if pat.isEmpty then 1 else 0
  | c :: cs => (if startsWithChars pat (c :: cs) then 1 else 0) + occurrencesChars pat cs

/-- The number of occurrences of `pat` in `text`. -/
def occurrences (pat text : String) : Nat := occurrencesChars pat.toList text.toList

/-- A registry that holds the entry `a`, read from `maps/a.map` when that file named
the map `Old`, and a disk on which the file now names it `New`. -/
def exampleReRegister : Engine :=
  { gm := { GameManager.initial with
      map_manifests_ :=
        [("a", { exampleDefaults with filepath := "maps/a.map", filename := "a",
                                      name := "Old" })] }
    sim_ticks := 0
    files := [("maps/a.map", "\x7b\"name\":\"New\"\x7d\n")]
    trace := [] }

/-- A map name of 64 characters. -/
def exampleLongName : String := String.mk (List.replicate 64 'a')

/-- The effects of lines 100-105 of `Tick` for the pointer found in the chosen slot:
none for a null pointer; else the two random draws around the terrain query and the
playback request at the position `x`, `y`, `z`, with zero velocity, looping, at half
volume. -/
def playEvents (width : Nat) (map sample : Option Handle) (x y z : CFloat) : List Event :=
  match sample with
  | none => []
  | some s =>
    [.Randomf width x, .GetMaxHeight map y, .Randomf width z,
      .PlayLocalSound s x y z FLOAT_ZERO FLOAT_ZERO FLOAT_ZERO true FLOAT_HALF]

/-- The playback requests among effects. -/
def Event.isPlayback : Event → Bool
  | .PlayLocalSound _ _ _ _ _ _ _ _ _ => true
  | _ => false

/-- The mode ticks among effects. -/
def Event.isModeTick : Event → Bool
  | .ModeTick _ => true
  | _ => false

/-- The spec's text for the modes of a listed map: the first mode preceded by a space,
each later mode by a comma and a space. -/
def specModesText : List String → String
  | [] => ""
  | first :: later => " " ++ first ++ String.join (later.map fun mode => ", " ++ mode)

/-- The spec's line for one registry entry: name, registry key, description and the
modes in order. -/
def specMapsLine (entry : String × MapManifest) : String :=
  entry.2.name ++ "/" ++ entry.1 ++ " : " ++ entry.2.description ++ " :" ++
    specModesText entry.2.modes

/-- The running session of `exampleSession` at the last tick before the 32-bit tick
counter wraps. -/
def exampleLateTick : Engine :=
  { exampleSession with sim_ticks := 4294967295 }

/-- A registry of two maps, the first with two modes and the second with none. -/
def exampleListing : Engine :=
  { Engine.initial with gm := { GameManager.initial with
      map_manifests_ :=
        [("camp", { exampleDefaults with filepath := "maps/camp.map", filename := "camp",
                                         name := "Boot Camp", description := "Training",
                                         modes := ["dm", "survival"] }),
         ("hill", { exampleDefaults with filepath := "maps/hill.map", filename := "hill" })] } }

/-! ## Properties

### Supporting lemmas -/

/-- A name has no entry exactly when `find` misses. -/
theorem mapFind_eq_none_iff (name : String) (entries : List (String × MapManifest)) :
    mapFind name entries = none ↔ name ∉ entries.map Prod.fst := by
  induction entries with
  | nil => simp [mapFind]
  | cons hd tl ih =>
    obtain ⟨k, v⟩ := hd
    by_cases hk : k = name
    · simp [mapFind, hk]
    · have hk2 : ¬ name = k := fun h => hk h.symm
      simp [mapFind, hk, hk2, ih]

/-- What `LoadMap` does when `find` misses: two warnings and nothing else. -/
theorem LoadMap_missing_spec (P : Platform) (e : Engine) (name : String)
    (h : mapFind name e.gm.map_manifests_ = none) :
    (LoadMap P e name).gm = e.gm ∧
    (LoadMap P e name).sim_ticks = e.sim_ticks ∧
    (LoadMap P e name).files = e.files ∧
    (LoadMap P e name).trace = e.trace ++
      [.LogWarn ("Failed to get manifest for \"" ++ name ++ "\"!\n"),
       .LogWarn ("Failed to get map descriptor, \"" ++ name ++ "\"\n")] := by
  simp [LoadMap, GetMapManifest, h, emit]

/-- The loop of `LoadMap` is the sequence of its eight caching statements. -/
theorem cacheLoop_eq_cacheAll (P : Platform) (time : String) (e : Engine) :
    cacheLoop P (if time != "day" then "n" else "d") e = cacheAll P (specSamplePaths time) (e, 0) := by
  by_cases h : time = "day"
  · subst h
    rfl
  · have hne : (time != "day") = true := by simp [h]
    simp only [hne, h, cacheLoop, cacheLoopBody, cacheAll, specSamplePaths, List.foldl,
      if_true, if_false]
    rfl

/-- What a run of caching statements does: it appends the request/store pairs to the
trace and fills the slots, and touches nothing else. -/
theorem cacheAll_spec (P : Platform) (paths : List String) (st : Engine × Nat) :
    ∃ samples : List (Option Handle), samples.length = paths.length ∧
      (cacheAll P paths st).1.trace = st.1.trace ++ sampleEvents st.2 paths samples ∧
      (cacheAll P paths st).1.gm = { st.1.gm with
        ambient_samples_ := storeAll st.2 samples st.1.gm.ambient_samples_ } ∧
      (cacheAll P paths st).1.sim_ticks = st.1.sim_ticks ∧
      (cacheAll P paths st).1.files = st.1.files ∧
      (cacheAll P paths st).2 = st.2 + paths.length := by
  induction paths generalizing st with
  | nil => exact ⟨[], rfl, by simp [cacheAll, sampleEvents], rfl, rfl, rfl, rfl⟩
  | cons path rest ih =>
    obtain ⟨samples, hlen, htr, hgm, hticks, hfiles, hidx⟩ := ih (cacheSampleAt P path st)
    refine ⟨P.CacheSample st.1.trace path false :: samples, by simp [hlen], ?_, ?_, ?_, ?_, ?_⟩
    · simp only [cacheAll, List.foldl] at htr ⊢
      rw [htr]
      simp [cacheSampleAt, storeAmbientSample, emit, sampleEvents]
    · simp only [cacheAll, List.foldl] at hgm ⊢
      rw [hgm]
      simp [cacheSampleAt, storeAmbientSample, emit, storeAll]
    · simp only [cacheAll, List.foldl] at hticks ⊢
      rw [hticks]
      simp [cacheSampleAt, storeAmbientSample, emit]
    · simp only [cacheAll, List.foldl] at hfiles ⊢
      rw [hfiles]
      simp [cacheSampleAt, storeAmbientSample, emit]
    · simp only [cacheAll, List.foldl] at hidx ⊢
      rw [hidx]
      simp [cacheSampleAt]
      omega

/-- The manager is not touched by an effect. -/
@[simp] theorem emit_gm (e : Engine) (ev : Event) : (emit e ev).gm = e.gm := rfl

/-- The tick counter is not touched by an effect. -/
@[simp] theorem emit_sim_ticks (e : Engine) (ev : Event) :
    (emit e ev).sim_ticks = e.sim_ticks := rfl

/-- The files are not touched by an effect. -/
@[simp] theorem emit_files (e : Engine) (ev : Event) : (emit e ev).files = e.files := rfl

/-- An effect goes to the end of the trace. -/
@[simp] theorem emit_trace (e : Engine) (ev : Event) :
    (emit e ev).trace = e.trace ++ [ev] := rfl

/-- The manager is not touched by writing a descriptor. -/
@[simp] theorem writeDescriptor_gm (e : Engine) (path text : String) :
    (writeDescriptor e path text).gm = e.gm := rfl

/-- The written file holds the text afterwards. -/
@[simp] theorem writeDescriptor_files (e : Engine) (path text : String) :
    (writeDescriptor e path text).files = writeFile e.files path text := rfl

/-- Writing a descriptor is one effect. -/
@[simp] theorem writeDescriptor_trace (e : Engine) (path text : String) :
    (writeDescriptor e path text).trace = e.trace ++ [.WriteFile path text] := rfl

/-- What lines 123-130 of `LoadMap` do: construction of the new map, the teardown of a
current session, then the store of the new map. -/
theorem loadMapInstall_spec (P : Platform) (e : Engine) (manifest : MapManifest) :
    (loadMapInstall P e manifest).trace = e.trace ++
      (.NewMap manifest (P.new_Map e.trace manifest) :: teardownEvents e.gm.active_map_ ++
        [.StoreActiveMap (some (P.new_Map e.trace manifest))]) ∧
    (loadMapInstall P e manifest).gm =
      { e.gm with active_map_ := some (P.new_Map e.trace manifest) } ∧
    (loadMapInstall P e manifest).sim_ticks = e.sim_ticks ∧
    (loadMapInstall P e manifest).files = e.files := by
  by_cases h : e.gm.active_map_ = none
  · simp [loadMapInstall, teardownEvents, h]
  · simp [loadMapInstall, teardownEvents, h]

/-- What lines 148-156 of `LoadMap` do, for the random draw and the mode address
they obtain. -/
theorem loadMapStart_spec (P : Platform) (e : Engine) :
    ∃ (r : Nat) (mode : Handle),
      (loadMapStart P e).trace = e.trace ++
        [.Rand r, .NewMode mode, .StoreActiveMode (some mode), .StartRound mode,
          .FrontEnd_SetState_GAME] ∧
      (loadMapStart P e).gm = { e.gm with
        active_mode_ := some mode,
        ambient_emit_delay_ := (e.sim_ticks + r % 100) % UINT_MODULUS } ∧
      (loadMapStart P e).sim_ticks = e.sim_ticks ∧
      (loadMapStart P e).files = e.files :=
  ⟨P.rand e.trace, P.new_BaseGameMode (e.trace ++ [.Rand (P.rand e.trace)]), by
    simp [loadMapStart]⟩

/-- What a successful `LoadMap` does, for the sample pointers, the random draw and the
mode address it obtains: the effects in program order and the manager afterwards. -/
theorem LoadMap_found_spec (P : Platform) (e : Engine) (name : String)
    (manifest : MapManifest) (h : mapFind name e.gm.map_manifests_ = some manifest) :
    ∃ (samples : List (Option Handle)) (r : Nat) (mode : Handle),
      samples.length = 8 ∧
      (LoadMap P e name).trace = e.trace ++
        (.NewMap manifest (P.new_Map e.trace manifest) :: teardownEvents e.gm.active_map_ ++
          [.StoreActiveMap (some (P.new_Map e.trace manifest))]) ++
        sampleEvents 0 (specSamplePaths manifest.time) samples ++
        [.Rand r, .NewMode mode, .StoreActiveMode (some mode), .StartRound mode,
          .FrontEnd_SetState_GAME] ∧
      (LoadMap P e name).gm =
        { map_manifests_ := e.gm.map_manifests_
          active_map_ := some (P.new_Map e.trace manifest)
          active_mode_ := some mode
          ambient_samples_ := storeAll 0 samples e.gm.ambient_samples_
          ambient_emit_delay_ := (e.sim_ticks + r % 100) % UINT_MODULUS } ∧
      (LoadMap P e name).sim_ticks = e.sim_ticks ∧
      (LoadMap P e name).files = e.files := by
  obtain ⟨htr1, hgm1, hticks1, hfiles1⟩ := loadMapInstall_spec P e manifest
  obtain ⟨samples, hlen, htr2, hgm2, hticks2, hfiles2, -⟩ :=
    cacheAll_spec P (specSamplePaths manifest.time) (loadMapInstall P e manifest, 0)
  obtain ⟨r, mode, htr3, hgm3, hticks3, hfiles3⟩ :=
    loadMapStart_spec P (cacheAll P (specSamplePaths manifest.time)
      (loadMapInstall P e manifest, 0)).1
  have hrun : LoadMap P e name = loadMapStart P (cacheAll P (specSamplePaths manifest.time)
      (loadMapInstall P e manifest, 0)).1 := by
    simp only [LoadMap, GetMapManifest, h, cacheLoop_eq_cacheAll]
  refine ⟨samples, r, mode, by simpa [specSamplePaths] using hlen, ?_, ?_, ?_, ?_⟩
  · rw [hrun, htr3, htr2, htr1]
  · rw [hrun, hgm3, hgm2, hgm1, hticks2, hticks1]
  · rw [hrun, hticks3, hticks2, hticks1]
  · rw [hrun, hfiles3, hfiles2, hfiles1]

/-- The caching effects are requests and stores only. -/
theorem sampleEvents_all_sample (idx : Nat) (paths : List String)
    (samples : List (Option Handle)) :
    ∀ ev ∈ sampleEvents idx paths samples, ev.isSampleEvent = true := by
  induction paths generalizing idx samples with
  | nil => intro ev hev; simp [sampleEvents] at hev
  | cons path rest ih =>
    cases samples with
    | nil => intro ev hev; simp [sampleEvents] at hev
    | cons sample more =>
      intro ev hev
      simp only [sampleEvents, List.mem_cons] at hev
      rcases hev with rfl | rfl | hev
      · rfl
      · rfl
      · exact ih _ _ ev hev

/-- The stores of a caching run go to consecutive slots. -/
theorem sampleEvents_storeIndex (idx : Nat) (paths : List String)
    (samples : List (Option Handle)) (hlen : samples.length = paths.length) :
    (sampleEvents idx paths samples).filterMap Event.storeIndex =
      List.range' idx paths.length := by
  induction paths generalizing idx samples with
  | nil => simp [sampleEvents]
  | cons path rest ih =>
    cases samples with
    | nil => simp at hlen
    | cons sample more =>
      simp only [List.length_cons, Nat.add_right_cancel_iff] at hlen
      simp [sampleEvents, Event.storeIndex, List.range'_succ, ih (idx + 1) more hlen]

/-- The slots after a run of stores. -/
theorem storeAll_apply (idx : Nat) (samples : List (Option Handle))
    (slots : Nat → Option Handle) (i : Nat) :
    storeAll idx samples slots i =
      if idx ≤ i ∧ i < idx + samples.length then samples.getD (i - idx) none else slots i := by
  induction samples generalizing idx slots with
  | nil =>
    have h : ¬ (idx ≤ i ∧ i < idx) := by omega
    simp [storeAll, h]
  | cons sample more ih =>
    rw [storeAll, ih]
    by_cases h1 : i = idx
    · subst h1
      simp
    · by_cases h2 : idx + 1 ≤ i
      · have h3 : idx ≤ i := by omega
        have h4 : i - idx = (i - (idx + 1)) + 1 := by omega
        simp only [h2, h3, true_and, List.length_cons, h4, List.getD_cons_succ]
        have h6 : Function.update slots idx sample i = slots i := by
          simp [Function.update, h1]
        rw [h6]
        by_cases h5 : i < idx + 1 + more.length
        · have h7 : i < idx + (more.length + 1) := by omega
          simp [h5, h7]
        · have h7 : ¬ i < idx + (more.length + 1) := by omega
          simp [h5, h7]
      · have h3 : ¬ idx ≤ i := by omega
        simp [h2, h3, Function.update, h1]

/-- No call of `LoadMap`, in any state and for any name, has an effect that destroys a
game mode or releases a sample. -/
theorem LoadMap_releases_no_mode_or_sample (P : Platform) (e : Engine) (name : String) :
    ((LoadMap P e name).trace.drop e.trace.length).filter Event.isModeOrSampleRelease = [] := by
  cases h : mapFind name e.gm.map_manifests_ with
  | none =>
    rw [(LoadMap_missing_spec P e name h).2.2.2]
    simp [Event.isModeOrSampleRelease]
  | some manifest =>
    obtain ⟨samples, r, mode, -, htr, -, -, -⟩ := LoadMap_found_spec P e name manifest h
    have hsample := sampleEvents_all_sample 0 (specSamplePaths manifest.time) samples
    have hnone : (sampleEvents 0 (specSamplePaths manifest.time) samples).filter
        Event.isModeOrSampleRelease = [] := by
      rw [List.filter_eq_nil_iff]
      intro ev hev
      have h2 := hsample ev hev
      cases ev <;> simp_all [Event.isSampleEvent, Event.isModeOrSampleRelease]
    rw [htr]
    simp only [List.append_assoc, List.drop_left, List.filter_append, hnone]
    by_cases hm : e.gm.active_map_ = none <;>
      simp [teardownEvents, hm, Event.isModeOrSampleRelease]

/-- The session pointers after `LoadMap`: both set when the name is registered, both
as before when it is not. -/
theorem LoadMap_session (P : Platform) (e : Engine) (name : String) :
    ((LoadMap P e name).gm.active_map_ ≠ none ∧ (LoadMap P e name).gm.active_mode_ ≠ none) ∨
    ((LoadMap P e name).gm.active_map_ = e.gm.active_map_ ∧
      (LoadMap P e name).gm.active_mode_ = e.gm.active_mode_) := by
  cases h : mapFind name e.gm.map_manifests_ with
  | none => right; rw [(LoadMap_missing_spec P e name h).1]; exact ⟨rfl, rfl⟩
  | some manifest =>
    obtain ⟨samples, r, mode, -, -, hgm, -, -⟩ := LoadMap_found_spec P e name manifest h
    left; rw [hgm]; simp

/-- The manager is not changed by `GetMapManifest`. -/
theorem GetMapManifest_gm (e : Engine) (name : String) :
    (GetMapManifest e name).1.gm = e.gm := by
  unfold GetMapManifest
  cases mapFind name e.gm.map_manifests_ <;> rfl

/-- The manager is not changed by `UnloadMap`: it assigns no member. -/
theorem UnloadMap_gm (P : Platform) (e : Engine) : (UnloadMap P e).gm = e.gm := by
  have hfold : ∀ (l : List Nat) (e : Engine),
      (l.foldl (fun e i => emit e (.DeleteSample (e.gm.ambient_samples_ i))) e).gm = e.gm := by
    intro l
    induction l with
    | nil => intro e; rfl
    | cons i rest ih => intro e; rw [List.foldl_cons, ih]; rfl
  simp [UnloadMap, hfold]

/-- The manager is not changed by the playback request of `Tick`. -/
theorem playAmbient_gm (P : Platform) (e : Engine) (sample : Handle) :
    (playAmbient P e sample).gm = e.gm := rfl

/-- The registry and the session pointers after the ambient branch of `Tick`. -/
theorem tickAmbient_gm (P : Platform) (e : Engine) :
    (tickAmbient P e).gm.active_map_ = e.gm.active_map_ ∧
    (tickAmbient P e).gm.active_mode_ = e.gm.active_mode_ := by
  unfold tickAmbient
  simp only [emit_gm]
  split <;> simp [playAmbient_gm]

/-- The session pointers are not changed by `Tick`. -/
theorem Tick_session (P : Platform) (e : Engine) :
    (Tick P e).gm.active_map_ = e.gm.active_map_ ∧
    (Tick P e).gm.active_mode_ = e.gm.active_mode_ := by
  unfold Tick
  cases h : e.gm.active_mode_ with
  | none => simp [h]
  | some mode =>
    by_cases hd : e.gm.ambient_emit_delay_ < e.sim_ticks
    · have := tickAmbient_gm P (emit e .FrontEnd_Tick)
      simp [h, hd, this]
    · simp [h, hd]

/-- The session pointers are not changed by `RegisterMapManifest`. -/
theorem RegisterMapManifest_session (P : Platform) (e : Engine) (path : String) :
    (RegisterMapManifest P e path).gm.active_map_ = e.gm.active_map_ ∧
    (RegisterMapManifest P e path).gm.active_mode_ = e.gm.active_mode_ := by
  unfold RegisterMapManifest
  simp only [emit_files]
  split <;> simp

/-- The session pointers are not changed by `RegisterMapManifests`. -/
theorem RegisterMapManifests_session (P : Platform) (e : Engine) :
    (RegisterMapManifests P e).gm.active_map_ = e.gm.active_map_ ∧
    (RegisterMapManifests P e).gm.active_mode_ = e.gm.active_mode_ := by
  have hfold : ∀ (l : List String) (e : Engine),
      (l.foldl (RegisterMapManifest P) e).gm.active_map_ = e.gm.active_map_ ∧
      (l.foldl (RegisterMapManifest P) e).gm.active_mode_ = e.gm.active_mode_ := by
    intro l
    induction l with
    | nil => intro e; exact ⟨rfl, rfl⟩
    | cons path rest ih =>
      intro e
      rw [List.foldl_cons]
      have h1 := ih (RegisterMapManifest P e path)
      have h2 := RegisterMapManifest_session P e path
      exact ⟨h1.1.trans h2.1, h1.2.trans h2.2⟩
  unfold RegisterMapManifests
  exact hfold _ _

/-- The session pointers are not changed by `CreateManifest`. -/
theorem CreateManifest_session (P : Platform) (e : Engine) (name : String) :
    (CreateManifest P e name).1.gm.active_map_ = e.gm.active_map_ ∧
    (CreateManifest P e name).1.gm.active_mode_ = e.gm.active_mode_ := by
  unfold CreateManifest
  cases h : mapFind name e.gm.map_manifests_ with
  | some manifest => simp [GetMapManifest, h]
  | none =>
    have hg : GetMapManifest e name =
        (emit e (.LogWarn ("Failed to get manifest for \"" ++ name ++ "\"!\n")), none) := by
      simp [GetMapManifest, h]
    rw [hg]
    simp only []
    split
    · simp
    · rw [GetMapManifest_gm]
      simp [RegisterMapManifest_session]

/-- The session pointers after `CreateMapCommand`: both set, or both as before. -/
theorem CreateMapCommand_session (P : Platform) (e : Engine) (argv : List String) :
    ((CreateMapCommand P e argv).gm.active_map_ ≠ none ∧
      (CreateMapCommand P e argv).gm.active_mode_ ≠ none) ∨
    ((CreateMapCommand P e argv).gm.active_map_ = e.gm.active_map_ ∧
      (CreateMapCommand P e argv).gm.active_mode_ = e.gm.active_mode_) := by
  unfold CreateMapCommand
  split
  · right; exact ⟨rfl, rfl⟩
  · have hc := CreateManifest_session P e (argv.getD 1 "")
    split
    · next e1 heq =>
      right
      rw [heq] at hc
      exact hc
    · next e1 m heq =>
      rw [heq] at hc
      rcases LoadMap_session P e1 (argv.getD 1 "") with hl | hl
      · left; exact hl
      · right; exact ⟨hl.1.trans hc.1, hl.2.trans hc.2⟩

/-- The session pointers after `MapCommand`: both set, or both as before. -/
theorem MapCommand_session (P : Platform) (e : Engine) (argv : List String) :
    ((MapCommand P e argv).gm.active_map_ ≠ none ∧
      (MapCommand P e argv).gm.active_mode_ ≠ none) ∨
    ((MapCommand P e argv).gm.active_map_ = e.gm.active_map_ ∧
      (MapCommand P e argv).gm.active_mode_ = e.gm.active_mode_) := by
  unfold MapCommand
  split
  · right; exact ⟨rfl, rfl⟩
  · rcases LoadMap_session P (GetMapManifest e (argv.getD 1 "")).1 (argv.getD 1 "") with hl | hl
    · left; exact hl
    · right
      rw [GetMapManifest_gm] at hl
      exact hl

/-- The manager is not changed by `MapsCommand`. -/
theorem MapsCommand_gm (e : Engine) : (MapsCommand e).gm = e.gm := by
  have hfold : ∀ (l : List (String × MapManifest)) (e : Engine),
      (l.foldl (fun e entry => emit e (.LogInfo (mapsLine entry ++ "\n"))) e).gm = e.gm := by
    intro l
    induction l with
    | nil => intro e; rfl
    | cons entry rest ih => intro e; rw [List.foldl_cons, ih]; rfl
  unfold MapsCommand
  split
  · rfl
  · simp [hfold]

/-- The session predicate survives a step that sets both pointers or keeps both. -/
theorem SessionUnit_step {gm gm1 : GameManager} (h : SessionUnit gm)
    (hstep : (gm1.active_map_ ≠ none ∧ gm1.active_mode_ ≠ none) ∨
      (gm1.active_map_ = gm.active_map_ ∧ gm1.active_mode_ = gm.active_mode_)) :
    SessionUnit gm1 := by
  unfold SessionUnit at h ⊢
  rcases hstep with ⟨h1, h2⟩ | ⟨h1, h2⟩
  · exact ⟨fun hm => absurd hm h1, fun hm => absurd hm h2⟩
  · rw [h1, h2]; exact h

/-- Reading a sequence by index, from 0 to its length, visits its items in order. -/
theorem map_range_getD (items : List String) (F : String → String) :
    (List.range items.length).map (fun i => F (items.getD i "")) = items.map F := by
  apply List.ext_getElem
  · simp
  · intro i h1 h2
    simp at h1
    simp [List.getD_eq_getElem?_getD, List.getElem?_eq_getElem h1]

/-- Items that each carry their comma, followed by a last item, are the items with
commas in between. -/
theorem joinWith_concat (items : List String) (last : String) :
    joinWith "," (items ++ [last]) = String.join (items.map fun s => s ++ ",") ++ last := by
  induction items with
  | nil => simp [joinWith, String.join]
  | cons item rest ih =>
    have hcons : joinWith "," (item :: rest ++ [last]) =
        item ++ "," ++ joinWith "," (rest ++ [last]) := by
      cases rest <;> simp [joinWith]
    rw [hcons, ih]
    apply String.ext
    simp only [String.data_join, String.data_append, List.map, List.flatten,
      List.append_assoc]

/-- The loop over the modes writes them quoted with commas in between. -/
theorem serializeModesLoop_eq (modes : List String) :
    serializeModesLoop modes = joinWith "," (modes.map quoted) := by
  rcases List.eq_nil_or_concat modes with rfl | ⟨init, last, rfl⟩
  · rfl
  · rw [List.concat_eq_append]
    unfold serializeModesLoop
    have hlen : (init ++ [last]).length = init.length + 1 := by simp
    rw [hlen, List.range_succ]
    simp only [List.map_append, List.map_singleton]
    rw [joinWith_concat]
    have hfront : (List.range init.length).map (fun i =>
          "\"" ++ (init ++ [last]).getD i "" ++ "\"" ++
            (if i != init.length + 1 - 1 then "," else "")) =
        (List.range init.length).map (fun i => (fun s => quoted s ++ ",") (init.getD i "")) := by
      apply List.map_congr_left
      intro i hi
      have hi2 : i < init.length := List.mem_range.1 hi
      have hne : (i != init.length + 1 - 1) = true := by
        simp; omega
      simp only [hne, if_true, quoted, List.getD_eq_getElem?_getD,
        List.getElem?_append_left hi2]
    rw [hfront, map_range_getD init (fun s => quoted s ++ ",")]
    apply String.ext
    simp [String.data_join, quoted, List.getD_eq_getElem?_getD, Function.comp_def]

/-- Looking up the key just placed by `orderedInsert`, when it was absent before. -/
theorem mapFind_orderedInsert_self (key : String) (value : MapManifest)
    (entries : List (String × MapManifest)) (h : mapFind key entries = none) :
    mapFind key (orderedInsert key value entries) = some value := by
  induction entries with
  | nil => simp [orderedInsert, mapFind]
  | cons hd tl ih =>
    obtain ⟨k, v⟩ := hd
    by_cases hk : k = key
    · simp [mapFind, hk] at h
    · simp only [mapFind, hk, if_false] at h
      by_cases hlt : key < k
      · simp [orderedInsert, hlt, mapFind]
      · simp [orderedInsert, hlt, mapFind, hk, ih h]

/-- Looking up another key is not affected by `orderedInsert`. -/
theorem mapFind_orderedInsert_other (key other : String) (value : MapManifest)
    (entries : List (String × MapManifest)) (h : other ≠ key) :
    mapFind other (orderedInsert key value entries) = mapFind other entries := by
  have h2 : ¬ key = other := fun hk => h hk.symm
  induction entries with
  | nil => simp [orderedInsert, mapFind, h2]
  | cons hd tl ih =>
    obtain ⟨k, v⟩ := hd
    by_cases hlt : key < k
    · simp [orderedInsert, hlt, mapFind, h2]
    · simp [orderedInsert, hlt, mapFind, ih]

/-- The number of entries under a key grows by one with `orderedInsert`. -/
theorem count_orderedInsert (key : String) (value : MapManifest)
    (entries : List (String × MapManifest)) :
    ((orderedInsert key value entries).filter fun kv => kv.1 = key).length =
      (entries.filter fun kv => kv.1 = key).length + 1 := by
  induction entries with
  | nil => simp [orderedInsert]
  | cons hd tl ih =>
    obtain ⟨k, v⟩ := hd
    by_cases hlt : key < k
    · simp [orderedInsert, hlt, List.filter_cons]
    · by_cases hk : k = key
      · simp [orderedInsert, hlt, List.filter_cons, hk, ih]
      · simp [orderedInsert, hlt, List.filter_cons, hk, ih]

/-- A key that `find` misses has no entry. -/
theorem count_of_mapFind_none (key : String) (entries : List (String × MapManifest))
    (h : mapFind key entries = none) :
    (entries.filter fun kv => kv.1 = key).length = 0 := by
  induction entries with
  | nil => rfl
  | cons hd tl ih =>
    obtain ⟨k, v⟩ := hd
    by_cases hk : k = key
    · simp [mapFind, hk] at h
    · simp only [mapFind, hk, if_false] at h
      simp [List.filter_cons, hk, ih h]

/-- The registry after `RegisterMapManifest` is the `insert` of the manifest of the
path under the key of the path. -/
theorem RegisterMapManifest_registry (P : Platform) (e : Engine) (path : String) :
    (RegisterMapManifest P e path).gm.map_manifests_ =
      mapInsert (manifestKey P path) (manifestOfPath P e.files path) e.gm.map_manifests_ := by
  unfold RegisterMapManifest
  simp only [emit_files]
  split <;> simp

/-- A file reads back as the text just written to it. -/
theorem readFile_writeFile (files : List (String × String)) (path text : String) :
    readFile (writeFile files path text) path = some text := by
  simp [readFile, writeFile]

/-- The tick counter and files are not changed by `GetMapManifest`, and its result is
the `find` of the name. -/
theorem GetMapManifest_result (e : Engine) (name : String) :
    (GetMapManifest e name).2 = mapFind name e.gm.map_manifests_ ∧
    (GetMapManifest e name).1.files = e.files ∧
    (GetMapManifest e name).1.trace = e.trace ++
      (if (mapFind name e.gm.map_manifests_).isSome then []
       else [.LogWarn ("Failed to get manifest for \"" ++ name ++ "\"!\n")]) := by
  unfold GetMapManifest
  cases mapFind name e.gm.map_manifests_ <;> simp

/-- The files are not changed by `RegisterMapManifest`, and its effects are the log
line and, when reading failed, a warning. -/
theorem RegisterMapManifest_effects (P : Platform) (e : Engine) (path : String) :
    (RegisterMapManifest P e path).files = e.files ∧
    ∃ warnings : List Event,
      (RegisterMapManifest P e path).trace =
        e.trace ++ .LogInfo ("Registering map \"" ++ path ++ "\"...\n") :: warnings ∧
      ∀ ev ∈ warnings, ∃ msg, ev = .LogWarn msg := by
  unfold RegisterMapManifest
  simp only [emit_files]
  split
  · next what _ =>
    exact ⟨rfl, [.LogWarn ("Failed to read map config, \"" ++ path ++ "\"!\n" ++ what ++ "\n")],
      by simp, by simp⟩
  · exact ⟨rfl, [], by simp, by simp⟩

/-- `CreateManifest` for a name that is registered: a warning and a null result. -/
theorem CreateManifest_present (P : Platform) (e : Engine) (name : String)
    (manifest : MapManifest) (h : mapFind name e.gm.map_manifests_ = some manifest) :
    CreateManifest P e name =
      (emit e (.LogWarn "Unable to create map, it already exists!\n"), none) := by
  simp [CreateManifest, GetMapManifest, h]

/-- `CreateManifest` for a name that is not registered, when the file opens: the
default manifest's text is written, the file is registered, and the result is the
lookup of the name afterwards. -/
theorem CreateManifest_absent (P : Platform) (e : Engine) (name : String)
    (h : mapFind name e.gm.map_manifests_ = none)
    (hopen : P.ofstream_is_open
      (e.trace ++ [.LogWarn ("Failed to get manifest for \"" ++ name ++ "\"!\n")])
      (P.u_get_full_path ++ "/maps/" ++ name ++ ".map") = true) :
    (CreateManifest P e name).1.gm.map_manifests_ =
      mapInsert (manifestKey P (P.u_get_full_path ++ "/maps/" ++ name ++ ".map"))
        (manifestOfPath P
          (writeFile e.files (P.u_get_full_path ++ "/maps/" ++ name ++ ".map")
            (Serialize P.to_string_float P.default_manifest))
          (P.u_get_full_path ++ "/maps/" ++ name ++ ".map"))
        e.gm.map_manifests_ ∧
    (CreateManifest P e name).2 = mapFind name (CreateManifest P e name).1.gm.map_manifests_ ∧
    (CreateManifest P e name).1.files =
      writeFile e.files (P.u_get_full_path ++ "/maps/" ++ name ++ ".map")
        (Serialize P.to_string_float P.default_manifest) ∧
    ∃ later : List Event,
      (CreateManifest P e name).1.trace = e.trace ++
        .LogWarn ("Failed to get manifest for \"" ++ name ++ "\"!\n") ::
        .WriteFile (P.u_get_full_path ++ "/maps/" ++ name ++ ".map")
          (Serialize P.to_string_float P.default_manifest) :: later := by
  have hg : GetMapManifest e name =
      (emit e (.LogWarn ("Failed to get manifest for \"" ++ name ++ "\"!\n")), none) := by
    simp [GetMapManifest, h]
  unfold CreateManifest
  rw [hg]
  simp only [emit_trace, hopen, Bool.not_true, Bool.false_eq_true, if_false]
  obtain ⟨hfiles, warnings, htrace, -⟩ := RegisterMapManifest_effects P
    (emit (writeDescriptor (emit e (.LogWarn ("Failed to get manifest for \"" ++ name ++ "\"!\n")))
        (P.u_get_full_path ++ "/maps/" ++ name ++ ".map")
        (Serialize P.to_string_float P.default_manifest))
      (.LogInfo ("Wrote \"" ++ (P.u_get_full_path ++ "/maps/" ++ name ++ ".map") ++ "\"!\n")))
    (P.u_get_full_path ++ "/maps/" ++ name ++ ".map")
  refine ⟨?_, ?_, ?_, ?_⟩
  · rw [GetMapManifest_gm, RegisterMapManifest_registry]
    simp
  · rw [GetMapManifest_gm]
    exact (GetMapManifest_result _ _).1
  · rw [(GetMapManifest_result _ _).2.1, hfiles]
    simp
  · rw [(GetMapManifest_result _ _).2.2, htrace]
    simp only [emit_trace, writeDescriptor_trace, List.append_assoc, List.singleton_append,
      List.cons_append, List.nil_append]
    exact ⟨_, rfl⟩

/-- Looking up another key is not affected by `insert`. -/
theorem mapFind_mapInsert_other (key other : String) (value : MapManifest)
    (entries : List (String × MapManifest)) (h : other ≠ key) :
    mapFind other (mapInsert key value entries) = mapFind other entries := by
  unfold mapInsert
  split
  · rfl
  · exact mapFind_orderedInsert_other _ _ _ _ h

/-- Looking up a key after its `insert`, when it was absent before. -/
theorem mapFind_mapInsert_self (key : String) (value : MapManifest)
    (entries : List (String × MapManifest)) (h : mapFind key entries = none) :
    mapFind key (mapInsert key value entries) = some value := by
  simp only [mapInsert, h, Option.isSome_none, Bool.false_eq_true, if_false]
  exact mapFind_orderedInsert_self _ _ _ h

/-- When `CreateManifest` returns a manifest: the name was not registered, the file
opened, the key of the written path is the name, and the manifest returned is the one
read back from the written file. -/
theorem CreateManifest_success (P : Platform) (e : Engine) (name : String) (M : MapManifest)
    (hM : (CreateManifest P e name).2 = some M) :
    mapFind name e.gm.map_manifests_ = none ∧
    P.ofstream_is_open
      (e.trace ++ [.LogWarn ("Failed to get manifest for \"" ++ name ++ "\"!\n")])
      (P.u_get_full_path ++ "/maps/" ++ name ++ ".map") = true ∧
    manifestKey P (P.u_get_full_path ++ "/maps/" ++ name ++ ".map") = name ∧
    M = manifestOfPath P
      (writeFile e.files (P.u_get_full_path ++ "/maps/" ++ name ++ ".map")
        (Serialize P.to_string_float P.default_manifest))
      (P.u_get_full_path ++ "/maps/" ++ name ++ ".map") := by
  cases h : mapFind name e.gm.map_manifests_ with
  | some manifest =>
    rw [CreateManifest_present P e name manifest h] at hM
    simp at hM
  | none =>
    cases hopen : P.ofstream_is_open
        (e.trace ++ [.LogWarn ("Failed to get manifest for \"" ++ name ++ "\"!\n")])
        (P.u_get_full_path ++ "/maps/" ++ name ++ ".map") with
    | false =>
      have hnone : (CreateManifest P e name).2 = none := by
        simp [CreateManifest, GetMapManifest, h, hopen]
      rw [hnone] at hM
      simp at hM
    | true =>
      obtain ⟨hreg, hres, -, -⟩ := CreateManifest_absent P e name h hopen
      rw [hres, hreg] at hM
      by_cases hkey : manifestKey P (P.u_get_full_path ++ "/maps/" ++ name ++ ".map") = name
      · refine ⟨rfl, rfl, hkey, ?_⟩
        have h2 : mapFind (manifestKey P (P.u_get_full_path ++ "/maps/" ++ name ++ ".map"))
            e.gm.map_manifests_ = none := by rw [hkey]; exact h
        have h3 := mapFind_mapInsert_self _ (manifestOfPath P
          (writeFile e.files (P.u_get_full_path ++ "/maps/" ++ name ++ ".map")
            (Serialize P.to_string_float P.default_manifest))
          (P.u_get_full_path ++ "/maps/" ++ name ++ ".map")) _ h2
        rw [hkey] at h3
        rw [hkey, h3] at hM
        exact (Option.some.inj hM).symm
      · rw [mapFind_mapInsert_other _ _ _ _ (fun hn => hkey hn.symm), h] at hM
        simp at hM

/-- The working case next to C6: when the registry key of the written path is the
name, the first `CreateManifest` registers it and the second one is rejected with a
warning as its only effect, leaving exactly one entry for the name. -/
theorem CreateManifest_twice_with_matching_key (P : Platform) (e : Engine) (name : String)
    (hkey : manifestKey P (P.u_get_full_path ++ "/maps/" ++ name ++ ".map") = name)
    (hopen : P.ofstream_is_open
      (e.trace ++ [.LogWarn ("Failed to get manifest for \"" ++ name ++ "\"!\n")])
      (P.u_get_full_path ++ "/maps/" ++ name ++ ".map") = true)
    (habsent : mapFind name e.gm.map_manifests_ = none) :
    (CreateManifest P e name).2 ≠ none ∧
    CreateManifest P (CreateManifest P e name).1 name =
      (emit (CreateManifest P e name).1
        (.LogWarn "Unable to create map, it already exists!\n"), none) ∧
    ((CreateManifest P e name).1.gm.map_manifests_.filter fun kv => kv.1 = name).length = 1 := by
  obtain ⟨hreg, hres, -, -⟩ := CreateManifest_absent P e name habsent hopen
  rw [hkey] at hreg
  have hfound := mapFind_mapInsert_self name (manifestOfPath P
    (writeFile e.files (P.u_get_full_path ++ "/maps/" ++ name ++ ".map")
      (Serialize P.to_string_float P.default_manifest))
    (P.u_get_full_path ++ "/maps/" ++ name ++ ".map")) _ habsent
  rw [← hreg] at hfound
  refine ⟨by rw [hres, hfound]; simp, CreateManifest_present P _ name _ hfound, ?_⟩
  rw [hreg]
  simp only [mapInsert, habsent, Option.isSome_none, Bool.false_eq_true, if_false]
  rw [count_orderedInsert, count_of_mapFind_none _ _ habsent]

/-- A run of deletions of sample slots: one effect per slot, in order, and nothing
else changes. -/
theorem deleteSamples_spec (slots : List Nat) (e : Engine) :
    (slots.foldl (fun e i => emit e (.DeleteSample (e.gm.ambient_samples_ i))) e).trace =
      e.trace ++ slots.map (fun i => .DeleteSample (e.gm.ambient_samples_ i)) ∧
    (slots.foldl (fun e i => emit e (.DeleteSample (e.gm.ambient_samples_ i))) e).gm = e.gm ∧
    (slots.foldl (fun e i => emit e (.DeleteSample (e.gm.ambient_samples_ i))) e).sim_ticks =
      e.sim_ticks ∧
    (slots.foldl (fun e i => emit e (.DeleteSample (e.gm.ambient_samples_ i))) e).files =
      e.files := by
  induction slots generalizing e with
  | nil => simp
  | cons i rest ih =>
    obtain ⟨h1, h2, h3, h4⟩ := ih (emit e (.DeleteSample (e.gm.ambient_samples_ i)))
    simp only [List.foldl_cons]
    refine ⟨?_, ?_, ?_, ?_⟩
    · rw [h1]; simp
    · rw [h2]; rfl
    · rw [h3]; rfl
    · rw [h4]; rfl

/-- What `UnloadMap` does: it deletes the pointer of every sample slot, then the mode,
then the map, and assigns nothing. -/
theorem UnloadMap_spec (P : Platform) (e : Engine) :
    (UnloadMap P e).trace = e.trace ++
      (List.range P.MAX_AMBIENT_SAMPLES).map (fun i => .DeleteSample (e.gm.ambient_samples_ i)) ++
      [.DeleteMode e.gm.active_mode_, .DeleteMap e.gm.active_map_] ∧
    (UnloadMap P e).gm = e.gm ∧
    (UnloadMap P e).sim_ticks = e.sim_ticks ∧
    (UnloadMap P e).files = e.files := by
  obtain ⟨h1, h2, h3, h4⟩ := deleteSamples_spec (List.range P.MAX_AMBIENT_SAMPLES) e
  unfold UnloadMap
  simp only [emit_trace, emit_gm, emit_sim_ticks, emit_files, h1, h2, h3, h4]
  simp

/-- What the playback request of `Tick` does, for the position it obtains. -/
theorem playAmbient_spec (P : Platform) (e : Engine) (sample : Handle) :
    ∃ x y z : CFloat,
      (playAmbient P e sample).trace =
        e.trace ++ playEvents P.TERRAIN_PIXEL_WIDTH e.gm.active_map_ (some sample) x y z ∧
      (playAmbient P e sample).gm = e.gm ∧
      (playAmbient P e sample).sim_ticks = e.sim_ticks ∧
      (playAmbient P e sample).files = e.files :=
  ⟨P.plGenerateRandomf e.trace P.TERRAIN_PIXEL_WIDTH,
    P.GetMaxHeight (e.trace ++ [.Randomf P.TERRAIN_PIXEL_WIDTH
      (P.plGenerateRandomf e.trace P.TERRAIN_PIXEL_WIDTH)]) e.gm.active_map_,
    P.plGenerateRandomf (e.trace ++ [.Randomf P.TERRAIN_PIXEL_WIDTH
      (P.plGenerateRandomf e.trace P.TERRAIN_PIXEL_WIDTH)] ++
      [.GetMaxHeight e.gm.active_map_ (P.GetMaxHeight (e.trace ++
        [.Randomf P.TERRAIN_PIXEL_WIDTH (P.plGenerateRandomf e.trace P.TERRAIN_PIXEL_WIDTH)])
        e.gm.active_map_)]) P.TERRAIN_PIXEL_WIDTH,
    by simp [playAmbient, playEvents], rfl, rfl, rfl⟩

/-- What the ambient branch of `Tick` does, for the draws and the position it
obtains: the slot draw, the playback for the pointer in that slot if it is not null,
the jitter draw, and the new deadline. -/
theorem tickAmbient_spec (P : Platform) (e : Engine) :
    ∃ (r jitter : Nat) (x y z : CFloat),
      (tickAmbient P e).trace = e.trace ++ [.Rand r] ++
        playEvents P.TERRAIN_PIXEL_WIDTH e.gm.active_map_
          (e.gm.ambient_samples_ (r % P.MAX_AMBIENT_SAMPLES)) x y z ++ [.Rand jitter] ∧
      (tickAmbient P e).gm = { e.gm with ambient_emit_delay_ :=
        (e.sim_ticks + P.TICKS_PER_SECOND + jitter % (7 * P.TICKS_PER_SECOND)) %
          UINT_MODULUS } ∧
      (tickAmbient P e).sim_ticks = e.sim_ticks ∧
      (tickAmbient P e).files = e.files := by
  cases hslot : e.gm.ambient_samples_ (P.rand e.trace % P.MAX_AMBIENT_SAMPLES) with
  | none =>
    refine ⟨P.rand e.trace, P.rand (e.trace ++ [.Rand (P.rand e.trace)]), ⟨0⟩, ⟨0⟩, ⟨0⟩, ?_⟩
    simp [tickAmbient, hslot, playEvents]
  | some sample =>
    obtain ⟨x, y, z, h1, h2, h3, h4⟩ :=
      playAmbient_spec P (emit e (.Rand (P.rand e.trace))) sample
    refine ⟨P.rand e.trace, P.rand (playAmbient P (emit e (.Rand (P.rand e.trace))) sample).trace,
      x, y, z, ?_⟩
    simp only [tickAmbient, emit_gm, hslot, emit_trace, emit_sim_ticks, emit_files, h1, h2,
      h3, h4]
    simp

/-- What `Tick` does with an active mode when the ambient deadline has not passed:
the front-end tick and the mode tick. -/
theorem Tick_not_due_spec (P : Platform) (e : Engine) (mode : Handle)
    (hmode : e.gm.active_mode_ = some mode)
    (hnot : ¬ e.gm.ambient_emit_delay_ < e.sim_ticks) :
    (Tick P e).trace = e.trace ++ [.FrontEnd_Tick, .ModeTick mode] ∧
    (Tick P e).gm = e.gm ∧
    (Tick P e).sim_ticks = e.sim_ticks ∧
    (Tick P e).files = e.files := by
  simp [Tick, hmode, hnot]

/-- What `Tick` does with an active mode when the ambient deadline has passed: the
front-end tick, the ambient branch, then the mode tick. -/
theorem Tick_due_spec (P : Platform) (e : Engine) (mode : Handle)
    (hmode : e.gm.active_mode_ = some mode)
    (hdue : e.gm.ambient_emit_delay_ < e.sim_ticks) :
    ∃ (r jitter : Nat) (x y z : CFloat),
      (Tick P e).trace = e.trace ++ [.FrontEnd_Tick, .Rand r] ++
        playEvents P.TERRAIN_PIXEL_WIDTH e.gm.active_map_
          (e.gm.ambient_samples_ (r % P.MAX_AMBIENT_SAMPLES)) x y z ++
        [.Rand jitter, .ModeTick mode] ∧
      (Tick P e).gm = { e.gm with ambient_emit_delay_ :=
        (e.sim_ticks + P.TICKS_PER_SECOND + jitter % (7 * P.TICKS_PER_SECOND)) %
          UINT_MODULUS } ∧
      (Tick P e).sim_ticks = e.sim_ticks ∧
      (Tick P e).files = e.files := by
  obtain ⟨r, jitter, x, y, z, h1, h2, h3, h4⟩ := tickAmbient_spec P (emit e .FrontEnd_Tick)
  refine ⟨r, jitter, x, y, z, ?_⟩
  simp only [Tick, emit_gm, hmode, emit_sim_ticks, hdue, if_true, emit_trace, emit_files, h1,
    h2, h3, h4]
  simp

/-- Appending pieces one after the other gives the start followed by the pieces
joined. -/
theorem foldl_append_join (indices : List Nat) (piece : Nat → String) (start : String) :
    indices.foldl (fun out i => out ++ piece i) start =
      start ++ String.join (indices.map piece) := by
  induction indices generalizing start with
  | nil => simp [String.join]
  | cons i rest ih =>
    rw [List.foldl_cons, ih]
    apply String.ext
    simp only [String.data_append, String.data_join, List.map, List.flatten,
      List.append_assoc]

/-- The loop of `MapsCommand` over the modes builds the spec's line. -/
theorem mapsLine_eq (entry : String × MapManifest) : mapsLine entry = specMapsLine entry := by
  unfold mapsLine specMapsLine
  rw [foldl_append_join]
  congr 1
  cases hm : entry.2.modes with
  | nil => rfl
  | cons first later =>
    rw [List.length_cons, List.range_succ_eq_map, List.map_cons, List.map_map]
    have hrest : (List.range later.length).map
          ((fun i => (if i == 0 then " " else ", ") ++ (first :: later).getD i "") ∘ Nat.succ) =
        (List.range later.length).map (fun i => (fun s => ", " ++ s) (later.getD i "")) := by
      apply List.map_congr_left
      intro i _
      simp
    rw [hrest, map_range_getD later (fun s => ", " ++ s)]
    apply String.ext
    simp [specModesText, String.data_join]

/-- The lines of `MapsCommand` for a run of entries: one per entry, in order, and
nothing else changes. -/
theorem mapsLines_spec (entries : List (String × MapManifest)) (e : Engine) :
    (entries.foldl (fun e entry => emit e (.LogInfo (mapsLine entry ++ "\n"))) e).trace =
      e.trace ++ entries.map (fun entry => .LogInfo (specMapsLine entry ++ "\n")) := by
  induction entries generalizing e with
  | nil => simp
  | cons entry rest ih =>
    rw [List.foldl_cons, ih]
    simp [mapsLine_eq]

/-! ### The claims -/

/-- C1: for every state and every name that is not a key of the manifest registry,
`LoadMap(name)` leaves the whole manager (so `active_map`, `active_mode`,
`ambient_samples` and `ambient_emit_delay`), the tick counter and the files as they
were, and its only effects are the two warnings: no teardown, no sample caching, no
mode construction and no front-end state change. -/
theorem LoadMap_unknown_name_changes_nothing (P : Platform) (e : Engine) (name : String)
    (h : name ∉ e.gm.map_manifests_.map Prod.fst) :
    (LoadMap P e name).gm = e.gm ∧
    (LoadMap P e name).sim_ticks = e.sim_ticks ∧
    (LoadMap P e name).files = e.files ∧
    (LoadMap P e name).trace = e.trace ++
      [.LogWarn ("Failed to get manifest for \"" ++ name ++ "\"!\n"),
       .LogWarn ("Failed to get map descriptor, \"" ++ name ++ "\"\n")] := by
  exact LoadMap_missing_spec P e name ((mapFind_eq_none_iff name e.gm.map_manifests_).2 h)

/-- The statement of C1 at the running session `exampleSession` and the unregistered
name `c`: the session (map 1, mode 2) is still the one installed. -/
theorem LoadMap_unknown_name_changes_nothing_witness :
    "c" ∉ exampleSession.gm.map_manifests_.map Prod.fst ∧
    (LoadMap examplePlatform exampleSession "c").gm = exampleSession.gm ∧
    (LoadMap examplePlatform exampleSession "c").gm.active_map_ = some 1 ∧
    (LoadMap examplePlatform exampleSession "c").gm.active_mode_ = some 2 :=
  have hc : "c" ∉ exampleSession.gm.map_manifests_.map Prod.fst := by decide
  have h := LoadMap_unknown_name_changes_nothing examplePlatform exampleSession "c" hc
  ⟨hc, h.1, by rw [h.1]; rfl, by rw [h.1]; rfl⟩

/-- C2: for registered names A and B, `LoadMap(A)` followed by `LoadMap(B)` ends with
the map built from B's manifest in `active_map` and the mode created by the second
call in `active_mode`; the effects of the second call start with the construction of
B's map, then `DestroyActors`, `DestroyModels`, the deletion of A's map, and only then
the store of B's map into `active_map`; no other map effect follows. -/
theorem LoadMap_twice_one_session_teardown_order (P : Platform) (e : Engine)
    (A B : String) (mA mB : MapManifest)
    (hA : mapFind A e.gm.map_manifests_ = some mA)
    (hB : mapFind B e.gm.map_manifests_ = some mB) :
    ∃ (mapA mapB modeB : Handle) (rest : List Event),
      Event.NewMap mA mapA ∈ (LoadMap P e A).trace.drop e.trace.length ∧
      (LoadMap P e A).gm.active_map_ = some mapA ∧
      (LoadMap P (LoadMap P e A) B).trace = (LoadMap P e A).trace ++
        [.NewMap mB mapB, .DestroyActors, .DestroyModels, .DeleteMap (some mapA),
          .StoreActiveMap (some mapB)] ++ rest ∧
      (∀ ev ∈ rest, ev.isMapEvent = false) ∧
      Event.NewMode modeB ∈ rest ∧
      (LoadMap P (LoadMap P e A) B).gm.active_map_ = some mapB ∧
      (LoadMap P (LoadMap P e A) B).gm.active_mode_ = some modeB := by
  obtain ⟨samples1, r1, mode1, -, htr1, hgm1, -, -⟩ := LoadMap_found_spec P e A mA hA
  have hB1 : mapFind B (LoadMap P e A).gm.map_manifests_ = some mB := by rw [hgm1]; exact hB
  obtain ⟨samples2, r2, mode2, -, htr2, hgm2, -, -⟩ :=
    LoadMap_found_spec P (LoadMap P e A) B mB hB1
  have hmapA : (LoadMap P e A).gm.active_map_ = some (P.new_Map e.trace mA) := by rw [hgm1]
  refine ⟨P.new_Map e.trace mA, P.new_Map (LoadMap P e A).trace mB, mode2,
    sampleEvents 0 (specSamplePaths mB.time) samples2 ++
      [.Rand r2, .NewMode mode2, .StoreActiveMode (some mode2), .StartRound mode2,
        .FrontEnd_SetState_GAME], ?_, hmapA, ?_, ?_, ?_, ?_, ?_⟩
  · rw [htr1]
    simp
  · rw [htr2, hmapA]
    simp [teardownEvents]
  · intro ev hev
    rcases List.mem_append.1 hev with h1 | h1
    · have h2 := sampleEvents_all_sample _ _ _ ev h1
      cases ev <;> simp_all [Event.isSampleEvent, Event.isMapEvent]
    · simp only [List.mem_cons, List.mem_singleton, List.not_mem_nil, or_false] at h1
      rcases h1 with rfl | rfl | rfl | rfl | rfl <;> rfl
  · simp
  · rw [hgm2]
  · rw [hgm2]

/-- The statement of C2 at `exampleIdle` with the registered names `a` and `b`. -/
theorem LoadMap_twice_one_session_teardown_order_witness :
    mapFind "a" exampleIdle.gm.map_manifests_ =
      some { exampleDefaults with filepath := "maps/a.map", filename := "a" } ∧
    mapFind "b" exampleIdle.gm.map_manifests_ =
      some { exampleDefaults with filepath := "maps/b.map", filename := "b",
                                  time := "night" } ∧
    ∃ (mapA mapB : Handle) (rest : List Event),
      (LoadMap examplePlatform (LoadMap examplePlatform exampleIdle "a") "b").trace =
        (LoadMap examplePlatform exampleIdle "a").trace ++
          [.NewMap { exampleDefaults with filepath := "maps/b.map", filename := "b",
                                          time := "night" } mapB,
            .DestroyActors, .DestroyModels, .DeleteMap (some mapA),
            .StoreActiveMap (some mapB)] ++ rest ∧
      (LoadMap examplePlatform (LoadMap examplePlatform exampleIdle "a") "b").gm.active_map_ =
        some mapB :=
  have hA : mapFind "a" exampleIdle.gm.map_manifests_ =
      some { exampleDefaults with filepath := "maps/a.map", filename := "a" } := by decide
  have hB : mapFind "b" exampleIdle.gm.map_manifests_ =
      some { exampleDefaults with filepath := "maps/b.map", filename := "b",
                                  time := "night" } := by decide
  have h := LoadMap_twice_one_session_teardown_order examplePlatform exampleIdle "a" "b" _ _ hA hB
  ⟨hA, hB, h.elim fun mapA h => h.elim fun mapB h => h.elim fun _ h => h.elim fun rest h =>
    ⟨mapA, mapB, rest, h.2.2.1, h.2.2.2.2.2.1⟩⟩

/-- C3, evaluated: `LoadMap(b)` in the running session `exampleSession` (map 1, mode 2,
samples 10 to 17). The call deletes map 1, but none of its effects destroys a mode or
releases a sample; afterwards `active_mode` and the eight slots hold other objects
than before, so mode 2 and samples 10 to 17 are neither destroyed nor owned. -/
theorem LoadMap_overwrites_mode_and_samples_without_release :
    Event.DeleteMap (some 1) ∈ (LoadMap examplePlatform exampleSession "b").trace ∧
    ((LoadMap examplePlatform exampleSession "b").trace.filter
      Event.isModeOrSampleRelease) = [] ∧
    exampleSession.gm.active_mode_ = some 2 ∧
    (LoadMap examplePlatform exampleSession "b").gm.active_mode_ = some 1022 ∧
    (List.range 8).map exampleSession.gm.ambient_samples_ =
      [some 10, some 11, some 12, some 13, some 14, some 15, some 16, some 17] ∧
    (List.range 8).map (LoadMap examplePlatform exampleSession "b").gm.ambient_samples_ =
      [some 1005, some 1007, some 1009, some 1011, some 1013, some 1015, some 1017,
        some 1019] := by
  decide

/-- C4: `active_map` and `active_mode` are both null or both non-null in the manager
as constructed, every operation of the manager (`LoadMap` with a registered or an
unregistered name, `UnloadMap`, `Tick`, `RegisterMapManifest`, `RegisterMapManifests`,
`CreateManifest`) keeps it so, and so it holds in every reachable state. -/
theorem SessionUnit_invariant (P : Platform) :
    SessionUnit GameManager.initial ∧
    (∀ (e : Engine) (name : String), SessionUnit e.gm → SessionUnit (LoadMap P e name).gm) ∧
    (∀ e : Engine, SessionUnit e.gm → SessionUnit (UnloadMap P e).gm) ∧
    (∀ e : Engine, SessionUnit e.gm → SessionUnit (Tick P e).gm) ∧
    (∀ (e : Engine) (path : String),
      SessionUnit e.gm → SessionUnit (RegisterMapManifest P e path).gm) ∧
    (∀ e : Engine, SessionUnit e.gm → SessionUnit (RegisterMapManifests P e).gm) ∧
    (∀ (e : Engine) (name : String),
      SessionUnit e.gm → SessionUnit (CreateManifest P e name).1.gm) ∧
    (∀ e : Engine, Reachable P e → SessionUnit e.gm) := by
  have hLoad : ∀ (e : Engine) (name : String),
      SessionUnit e.gm → SessionUnit (LoadMap P e name).gm :=
    fun e name h => SessionUnit_step h (LoadMap_session P e name)
  have hUnload : ∀ e : Engine, SessionUnit e.gm → SessionUnit (UnloadMap P e).gm :=
    fun e h => by rw [UnloadMap_gm]; exact h
  have hTick : ∀ e : Engine, SessionUnit e.gm → SessionUnit (Tick P e).gm :=
    fun e h => SessionUnit_step h (Or.inr (Tick_session P e))
  have hReg : ∀ (e : Engine) (path : String),
      SessionUnit e.gm → SessionUnit (RegisterMapManifest P e path).gm :=
    fun e path h => SessionUnit_step h (Or.inr (RegisterMapManifest_session P e path))
  have hRegs : ∀ e : Engine, SessionUnit e.gm → SessionUnit (RegisterMapManifests P e).gm :=
    fun e h => SessionUnit_step h (Or.inr (RegisterMapManifests_session P e))
  have hCreate : ∀ (e : Engine) (name : String),
      SessionUnit e.gm → SessionUnit (CreateManifest P e name).1.gm :=
    fun e name h => SessionUnit_step h (Or.inr (CreateManifest_session P e name))
  refine ⟨⟨fun _ => rfl, fun _ => rfl⟩, hLoad, hUnload, hTick, hReg, hRegs, hCreate, ?_⟩
  intro e hreach
  induction hreach with
  | start ticks files => exact ⟨fun _ => rfl, fun _ => rfl⟩
  | outside ticks files _ ih => exact ih
  | loadMap name _ ih => exact hLoad _ name ih
  | unloadMap _ ih => exact hUnload _ ih
  | tick _ ih => exact hTick _ ih
  | registerMapManifest path _ ih => exact hReg _ path ih
  | registerMapManifests _ ih => exact hRegs _ ih
  | createManifest name _ ih => exact hCreate _ name ih
  | createMapCommand argv _ ih => exact SessionUnit_step ih (CreateMapCommand_session P _ argv)
  | mapCommand argv _ ih => exact SessionUnit_step ih (MapCommand_session P _ argv)
  | mapsCommand _ ih => rw [MapsCommand_gm]; exact ih

/-- C5: in every state whose `active_mode` is null, whatever the tick counter and the
ambient deadline are, `Tick` leaves the manager, the tick counter and the files as
they were and its only effect is the front-end tick: no playback request, no random
draw, no mode tick. -/
theorem Tick_without_mode_only_ticks_front_end (P : Platform) (e : Engine)
    (h : e.gm.active_mode_ = none) :
    (Tick P e).gm = e.gm ∧
    (Tick P e).sim_ticks = e.sim_ticks ∧
    (Tick P e).files = e.files ∧
    (Tick P e).trace = e.trace ++ [.FrontEnd_Tick] := by
  simp [Tick, emit, h]

/-- The statement of C5 at `exampleIdle`, where the deadline 5 is before the tick
counter 100 and the sample slots are filled. -/
theorem Tick_without_mode_only_ticks_front_end_witness :
    exampleIdle.gm.active_mode_ = none ∧
    exampleIdle.gm.ambient_emit_delay_ < exampleIdle.sim_ticks ∧
    (Tick examplePlatform exampleIdle).gm = exampleIdle.gm ∧
    (Tick examplePlatform exampleIdle).trace = [.FrontEnd_Tick] :=
  have h := Tick_without_mode_only_ticks_front_end examplePlatform exampleIdle rfl
  ⟨rfl, by decide, h.1, h.2.2.2⟩

/-- C6, the defect: when the registry key of the written path is not the name (a name
with a slash, or one too long for the 64-byte buffer), `CreateManifest(name)` called
twice, the file opening both times, returns null both times, leaves no entry for the
name, and the second call writes the descriptor file again instead of rejecting. -/
theorem CreateManifest_twice_with_other_key (P : Platform) (e : Engine) (name : String)
    (hkey : manifestKey P (P.u_get_full_path ++ "/maps/" ++ name ++ ".map") ≠ name)
    (hopen : ∀ tr : List Event,
      P.ofstream_is_open tr (P.u_get_full_path ++ "/maps/" ++ name ++ ".map") = true)
    (habsent : mapFind name e.gm.map_manifests_ = none) :
    (CreateManifest P e name).2 = none ∧
    (CreateManifest P (CreateManifest P e name).1 name).2 = none ∧
    mapFind name (CreateManifest P (CreateManifest P e name).1 name).1.gm.map_manifests_ =
      none ∧
    Event.WriteFile (P.u_get_full_path ++ "/maps/" ++ name ++ ".map")
        (Serialize P.to_string_float P.default_manifest) ∈
      (CreateManifest P (CreateManifest P e name).1 name).1.trace.drop
        (CreateManifest P e name).1.trace.length := by
  have hne : name ≠ manifestKey P (P.u_get_full_path ++ "/maps/" ++ name ++ ".map") :=
    fun h => hkey h.symm
  obtain ⟨hreg1, hres1, -, -⟩ := CreateManifest_absent P e name habsent (hopen _)
  have habsent1 : mapFind name (CreateManifest P e name).1.gm.map_manifests_ = none := by
    rw [hreg1, mapFind_mapInsert_other _ _ _ _ hne]; exact habsent
  obtain ⟨hreg2, hres2, -, later, htrace2⟩ :=
    CreateManifest_absent P (CreateManifest P e name).1 name habsent1 (hopen _)
  have habsent2 : mapFind name
      (CreateManifest P (CreateManifest P e name).1 name).1.gm.map_manifests_ = none := by
    rw [hreg2, mapFind_mapInsert_other _ _ _ _ hne]; exact habsent1
  refine ⟨by rw [hres1]; exact habsent1, by rw [hres2]; exact habsent2, habsent2, ?_⟩
  rw [htrace2]
  simp

/-- The statement of the defect of C6 on the example platform, from the engine as
constructed, for the name of 64 characters (its key keeps 63 of them). -/
theorem CreateManifest_twice_with_other_key_witness :
    manifestKey examplePlatform
      (examplePlatform.u_get_full_path ++ "/maps/" ++ exampleLongName ++ ".map") =
      String.mk (List.replicate 63 'a') ∧
    (CreateManifest examplePlatform Engine.initial exampleLongName).2 = none ∧
    (CreateManifest examplePlatform
      (CreateManifest examplePlatform Engine.initial exampleLongName).1 exampleLongName).2 =
      none ∧
    Event.WriteFile (examplePlatform.u_get_full_path ++ "/maps/" ++ exampleLongName ++ ".map")
        (Serialize examplePlatform.to_string_float examplePlatform.default_manifest) ∈
      (CreateManifest examplePlatform
        (CreateManifest examplePlatform Engine.initial exampleLongName).1
          exampleLongName).1.trace.drop
        (CreateManifest examplePlatform Engine.initial exampleLongName).1.trace.length :=
  have h := CreateManifest_twice_with_other_key examplePlatform Engine.initial exampleLongName
    (by decide) (fun _ => rfl) rfl
  ⟨by decide, h.1, h.2.1, h.2.2.2⟩

/-- The defect of C6 for a name with a slash: the key of the written path of `a/b`
is `b`, and both calls of `CreateManifest` return null. -/
theorem CreateManifest_twice_with_slash :
    manifestKey examplePlatform (examplePlatform.u_get_full_path ++ "/maps/" ++ "a/b" ++ ".map") =
      "b" ∧
    (CreateManifest examplePlatform Engine.initial "a/b").2 = none ∧
    (CreateManifest examplePlatform
      (CreateManifest examplePlatform Engine.initial "a/b").1 "a/b").2 = none ∧
    (CreateManifest examplePlatform
      (CreateManifest examplePlatform Engine.initial "a/b").1 "a/b").1.gm.map_manifests_.map
        Prod.fst = ["b"] ∧
    ((CreateManifest examplePlatform
      (CreateManifest examplePlatform Engine.initial "a/b").1 "a/b").1.trace.filter
        fun ev => ev matches .WriteFile _ _).length = 2 := by
  decide

/-- C7, as amended: for every registry and every descriptor path, with `k` the base
name of the path with the extension stripped and `M` the manifest read from the path
(`filepath` the path, `filename` `k`): when `k` was absent, `RegisterMapManifest`
leaves exactly one entry for `k` and its value is `M`; when `k` was already present
the registry is left as it was, with the old entry; every other key is unchanged. -/
theorem RegisterMapManifest_inserts_or_keeps (P : Platform) (e : Engine) (path : String) :
    (manifestOfPath P e.files path).filepath = path ∧
    (manifestOfPath P e.files path).filename = manifestKey P path ∧
    (mapFind (manifestKey P path) e.gm.map_manifests_ = none →
      mapFind (manifestKey P path) (RegisterMapManifest P e path).gm.map_manifests_ =
        some (manifestOfPath P e.files path) ∧
      ((RegisterMapManifest P e path).gm.map_manifests_.filter
        fun kv => kv.1 = manifestKey P path).length = 1) ∧
    (∀ old : MapManifest, mapFind (manifestKey P path) e.gm.map_manifests_ = some old →
      (RegisterMapManifest P e path).gm.map_manifests_ = e.gm.map_manifests_) ∧
    (∀ other : String, other ≠ manifestKey P path →
      mapFind other (RegisterMapManifest P e path).gm.map_manifests_ =
        mapFind other e.gm.map_manifests_) := by
  rw [RegisterMapManifest_registry]
  refine ⟨rfl, rfl, ?_, ?_, ?_⟩
  · intro h
    simp only [mapInsert, h, Option.isSome_none, Bool.false_eq_true, if_false]
    exact ⟨mapFind_orderedInsert_self _ _ _ h,
      by rw [count_orderedInsert, count_of_mapFind_none _ _ h]⟩
  · intro old h
    simp [mapInsert, h]
  · intro other hne
    unfold mapInsert
    split
    · rfl
    · exact mapFind_orderedInsert_other _ _ _ _ hne

/-- C7 as stated fails when the key is already present: registering `maps/a.map`
again, after the file was changed to name the map `New`, leaves the entry `a` with the
old manifest, named `Old`. -/
theorem RegisterMapManifest_keeps_old_entry :
    manifestKey examplePlatform "maps/a.map" = "a" ∧
    (mapFind "a" exampleReRegister.gm.map_manifests_).map (fun m => m.name) = some "Old" ∧
    (manifestOfPath examplePlatform exampleReRegister.files "maps/a.map").name = "New" ∧
    (mapFind "a"
      (RegisterMapManifest examplePlatform exampleReRegister "maps/a.map").gm.map_manifests_).map
        (fun m => m.name) = some "Old" := by
  decide

/-- C8: whenever the config reader reads the text of a default manifest back as the
default values (the round-trip contract of the spec) and `CreateManifest(name)`
succeeds, returning `M`: looking up `M.filename` returns `M`; `M` is the default
manifest with `filepath` the written path and `filename` the name; the descriptor file
holds the text of a default manifest; and the text of `M` is that text, byte for
byte. -/
theorem CreateManifest_registers_defaults (P : Platform) (e : Engine) (name : String)
    (M : MapManifest)
    (hround : (readManifest P (some (Serialize P.to_string_float P.default_manifest))).1 =
      P.default_manifest)
    (hM : (CreateManifest P e name).2 = some M) :
    (GetMapManifest (CreateManifest P e name).1 M.filename).2 = some M ∧
    M = { P.default_manifest with
      filepath := P.u_get_full_path ++ "/maps/" ++ name ++ ".map", filename := name } ∧
    readFile (CreateManifest P e name).1.files (P.u_get_full_path ++ "/maps/" ++ name ++ ".map") =
      some (Serialize P.to_string_float P.default_manifest) ∧
    Serialize P.to_string_float M = Serialize P.to_string_float P.default_manifest := by
  obtain ⟨habsent, hopen, hkey, hval⟩ := CreateManifest_success P e name M hM
  obtain ⟨-, hres, hfiles, -⟩ := CreateManifest_absent P e name habsent hopen
  have hshape : M = { P.default_manifest with
      filepath := P.u_get_full_path ++ "/maps/" ++ name ++ ".map", filename := name } := by
    rw [hval]
    simp only [manifestOfPath, readFile_writeFile, hround, hkey]
  have hname : M.filename = name := by rw [hshape]
  refine ⟨?_, hshape, ?_, ?_⟩
  · rw [(GetMapManifest_result _ _).1, hname, ← hres]
    exact hM
  · rw [hfiles, readFile_writeFile]
  · rw [hshape]
    rfl

/-- The statement of C8 on the example platform, whose config reader scans the
descriptor text: creating `camp` from the engine as constructed. -/
theorem CreateManifest_registers_defaults_witness :
    (readManifest examplePlatform
      (some (Serialize examplePlatform.to_string_float examplePlatform.default_manifest))).1 =
      examplePlatform.default_manifest ∧
    (CreateManifest examplePlatform Engine.initial "camp").2 =
      some { exampleDefaults with
        filepath := "./campaigns/how/maps/camp.map", filename := "camp" } ∧
    (GetMapManifest (CreateManifest examplePlatform Engine.initial "camp").1 "camp").2 =
      some { exampleDefaults with
        filepath := "./campaigns/how/maps/camp.map", filename := "camp" } ∧
    Serialize printf_f { exampleDefaults with
        filepath := "./campaigns/how/maps/camp.map", filename := "camp" } =
      Serialize printf_f exampleDefaults :=
  have hround : (readManifest examplePlatform
      (some (Serialize examplePlatform.to_string_float examplePlatform.default_manifest))).1 =
      examplePlatform.default_manifest := by decide
  have hM : (CreateManifest examplePlatform Engine.initial "camp").2 =
      some { exampleDefaults with
        filepath := "./campaigns/how/maps/camp.map", filename := "camp" } := by decide
  have h := CreateManifest_registers_defaults examplePlatform Engine.initial "camp" _ hround hM
  ⟨hround, hM, h.1, h.2.2.2⟩

/-- C9, as amended: the text returned by `Serialize` is the canonical text of the
spec's key/value entries, in the spec's order, each once: all sixteen when the modes
sequence is not empty, and the fifteen other than `modes` when it is empty. A colour
is its `r`, `g`, `b` in decimal separated by single spaces. The text depends on the
sixteen encoded fields only: manifests that agree on them have the same text. -/
theorem Serialize_entries_in_order (to_string_float : CFloat → String) (m : MapManifest) :
    (specEntries to_string_float m).map Prod.fst =
      ["name", "author", "description", "modes", "ambientColour", "skyColourTop",
        "skyColourBottom", "sunColour", "sunYaw", "sunPitch", "temperature", "weather",
        "time", "fogColour", "fogIntensity", "fogDistance"] ∧
    Serialize to_string_float m =
      renderEntries (if m.modes.isEmpty then
          (specEntries to_string_float m).filter (fun kv => kv.1 != "modes")
        else specEntries to_string_float m) ∧
    ∀ m2 : MapManifest,
      m2.name = m.name → m2.author = m.author → m2.description = m.description →
      m2.modes = m.modes → m2.ambient_colour = m.ambient_colour →
      m2.sky_colour_top = m.sky_colour_top → m2.sky_colour_bottom = m.sky_colour_bottom →
      m2.sun_colour = m.sun_colour → m2.sun_yaw = m.sun_yaw → m2.sun_pitch = m.sun_pitch →
      m2.temperature = m.temperature → m2.weather = m.weather → m2.time = m.time →
      m2.fog_colour = m.fog_colour → m2.fog_intensity = m.fog_intensity →
      m2.fog_distance = m.fog_distance →
      Serialize to_string_float m2 = Serialize to_string_float m := by
  refine ⟨rfl, ?_, ?_⟩
  · cases hm : m.modes with
    | nil =>
      simp only [Serialize, specEntries, renderEntries, hm, List.isEmpty_nil, Bool.not_true,
        if_true, List.filter, List.map, joinWith, quoted, specColour, serializeColour,
        to_string_int]
      apply String.ext
      simp only [String.data_join, String.data_append, List.map, List.flatten,
        List.append_assoc, List.cons_append, List.nil_append, List.append_nil]
      rfl
    | cons mode rest =>
      rw [← hm]
      have hne : m.modes.isEmpty = false := by rw [hm]; rfl
      simp only [Serialize, specEntries, renderEntries, hne, Bool.not_false,
        if_true, List.map, joinWith, quoted, specColour, serializeColour,
        to_string_int, serializeModesLoop_eq]
      apply String.ext
      simp only [String.data_join, String.data_append, List.map, List.flatten,
        List.append_assoc, List.cons_append, List.nil_append, List.append_nil]
  · intro m2 h1 h2 h3 h4 h5 h6 h7 h8 h9 h10 h11 h12 h13 h14 h15 h16
    simp only [Serialize, h1, h2, h3, h4, h5, h6, h7, h8, h9, h10, h11, h12, h13, h14, h15,
      h16]

/-- C9 as stated fails for a manifest whose modes sequence is empty, such as the
example defaults: the key `modes` does not occur in its text, which has the fifteen
other keys. -/
theorem Serialize_empty_modes_omits_modes_key :
    exampleDefaults.modes = [] ∧
    occurrences "\"modes\"" (Serialize printf_f exampleDefaults) = 0 ∧
    Serialize printf_f exampleDefaults =
      "\x7b\"name\":\"none\",\"author\":\"none\",\"description\":\"none\",\"ambientColour\":\"255 255 255\",\"skyColourTop\":\"0 104 156\",\"skyColourBottom\":\"223 255 255\",\"sunColour\":\"255 255 255\",\"sunYaw\":\"0.000000\",\"sunPitch\":\"0.000000\",\"temperature\":\"normal\",\"weather\":\"clear\",\"time\":\"day\",\"fogColour\":\"223 255 255\",\"fogIntensity\":\"30.000000\",\"fogDistance\":\"100.000000\"\x7d\n" := by
  decide

/-- C10: a successful `LoadMap` requests exactly the eight sample paths of the spec,
in that order and each with `stream = false` (the day set when the manifest's `time`
is the exact string `day`, the night set for every other value), stores the result of
the k-th request into slot k right after it, writes to the slots 0 to 7 and to no
other in that order, and leaves slot k holding the k-th result. -/
theorem LoadMap_caches_the_eight_samples (P : Platform) (e : Engine) (name : String)
    (manifest : MapManifest) (h : mapFind name e.gm.map_manifests_ = some manifest) :
    ∃ samples : List (Option Handle), samples.length = 8 ∧
      ((LoadMap P e name).trace.drop e.trace.length).filter Event.isSampleEvent =
        sampleEvents 0
          [ if manifest.time = "day" then "audio/amb_1d.wav" else "audio/amb_1n.wav",
            "audio/batt_s1.wav", "audio/batt_l1.wav",
            if manifest.time = "day" then "audio/amb_2d.wav" else "audio/amb_2n.wav",
            "audio/batt_s2.wav", "audio/batt_l2.wav",
            "audio/batt_s3.wav", "audio/batt_l3.wav" ] samples ∧
      ((LoadMap P e name).trace.drop e.trace.length).filterMap Event.storeIndex =
        [0, 1, 2, 3, 4, 5, 6, 7] ∧
      ∀ k, k < 8 → (LoadMap P e name).gm.ambient_samples_ k = samples.getD k none := by
  obtain ⟨samples, r, mode, hlen, htr, hgm, -, -⟩ := LoadMap_found_spec P e name manifest h
  have hsample := sampleEvents_all_sample 0 (specSamplePaths manifest.time) samples
  have hidx := sampleEvents_storeIndex 0 (specSamplePaths manifest.time) samples
    (by simpa [specSamplePaths] using hlen)
  refine ⟨samples, hlen, ?_, ?_, ?_⟩
  · rw [htr]
    simp only [List.append_assoc, List.drop_left, List.filter_append]
    rw [List.filter_eq_self.2 hsample]
    by_cases hm : e.gm.active_map_ = none <;>
      simp [teardownEvents, hm, Event.isSampleEvent, specSamplePaths]
  · rw [htr]
    simp only [List.append_assoc, List.drop_left, List.filterMap_append, hidx]
    by_cases hm : e.gm.active_map_ = none <;>
      simp [teardownEvents, hm, Event.storeIndex, specSamplePaths, List.range']
  · intro k hk
    rw [hgm]
    simp only [storeAll_apply, hlen]
    simp [hk]

/-- The statement of C10 at `exampleSession` and the name `b`, whose manifest has the
time `night`; the empty string and `Day` select the night set as well. -/
theorem LoadMap_caches_the_eight_samples_witness :
    mapFind "b" exampleSession.gm.map_manifests_ =
      some { exampleDefaults with filepath := "maps/b.map", filename := "b",
                                  time := "night" } ∧
    (∃ samples : List (Option Handle), samples.length = 8 ∧
      ((LoadMap examplePlatform exampleSession "b").trace.drop
          exampleSession.trace.length).filter Event.isSampleEvent =
        sampleEvents 0
          [ "audio/amb_1n.wav", "audio/batt_s1.wav", "audio/batt_l1.wav",
            "audio/amb_2n.wav", "audio/batt_s2.wav", "audio/batt_l2.wav",
            "audio/batt_s3.wav", "audio/batt_l3.wav" ] samples) ∧
    specSamplePaths "" = specSamplePaths "night" ∧
    specSamplePaths "Day" = specSamplePaths "night" :=
  have hB : mapFind "b" exampleSession.gm.map_manifests_ =
      some { exampleDefaults with filepath := "maps/b.map", filename := "b",
                                  time := "night" } := by decide
  have h := LoadMap_caches_the_eight_samples examplePlatform exampleSession "b" _ hB
  ⟨hB, h.elim fun samples h => ⟨samples, h.1, h.2.1⟩, by decide, by decide⟩

/-- C11, as amended: for every non-empty registry, `MapsCommand` emits one line per
registry entry, in registry order and each entry once, made of the manifest's name, a
slash, the registry key, the description and the modes in order (the first preceded by
a space, each later one by a comma and a space), and then a count line whose number
is the registry size; for the empty registry it emits the single warning that no maps
are available, and no count line. The manager is not changed. -/
theorem MapsCommand_lists_every_entry (e : Engine) :
    (e.gm.map_manifests_ ≠ [] →
      (MapsCommand e).trace = e.trace ++
        e.gm.map_manifests_.map (fun entry => .LogInfo (specMapsLine entry ++ "\n")) ++
        [.LogInfo (Nat.repr e.gm.map_manifests_.length ++ " maps\n")]) ∧
    (e.gm.map_manifests_ = [] →
      (MapsCommand e).trace = e.trace ++ [.LogWarn "No maps available!\n"]) ∧
    (MapsCommand e).gm = e.gm := by
  refine ⟨?_, ?_, MapsCommand_gm e⟩
  · intro hne
    have hempty : e.gm.map_manifests_.isEmpty = false := by
      cases h : e.gm.map_manifests_ with
      | nil => exact absurd h hne
      | cons _ _ => rfl
    simp only [MapsCommand, hempty, Bool.false_eq_true, if_false, emit_trace,
      mapsLines_spec, to_string_int]
    have hfold : ∀ (l : List (String × MapManifest)) (e : Engine),
        (l.foldl (fun e entry => emit e (.LogInfo (mapsLine entry ++ "\n"))) e).gm = e.gm := by
      intro l
      induction l with
      | nil => intro e; rfl
      | cons entry rest ih => intro e; rw [List.foldl_cons, ih]; rfl
    rw [hfold]
  · intro hnil
    simp [MapsCommand, hnil]

/-- C11 as stated fails for the empty registry: `MapsCommand` on the engine as
constructed emits the warning only, and no count line. -/
theorem MapsCommand_empty_registry_has_no_count_line :
    Engine.initial.gm.map_manifests_ = [] ∧
    (MapsCommand Engine.initial).trace = [.LogWarn "No maps available!\n"] ∧
    Event.LogInfo "0 maps\n" ∉ (MapsCommand Engine.initial).trace := by
  decide

/-- The lines of `MapsCommand` for the registry of `exampleListing`. -/
theorem MapsCommand_example_listing :
    (MapsCommand exampleListing).trace =
      [.LogInfo "Boot Camp/camp : Training : dm, survival\n",
       .LogInfo "none/hill : none :\n",
       .LogInfo "2 maps\n"] := by
  decide

/-- C12, as amended: with an active mode and a positive `TICKS_PER_SECOND`, at the
tick `t`: when `ambient_emit_delay` is not below `t`, `Tick` submits no playback
request, leaves the manager unchanged and ticks the mode once; when it is below `t`,
`Tick` draws a slot, submits one playback request for the pointer in that slot (zero
velocity, looping, volume 0.5) or none when it is null, draws the jitter, sets the
deadline to `t + TICKS_PER_SECOND + jitter mod (7 * TICKS_PER_SECOND)` reduced modulo
`2 ^ 32`, and ticks the mode once, last. The new deadline `d` satisfies
`t + TICKS_PER_SECOND ≤ d < t + 8 * TICKS_PER_SECOND` whenever
`t + 8 * TICKS_PER_SECOND ≤ 2 ^ 32`, that is when the tick arithmetic does not wrap. -/
theorem Tick_ambient_schedule (P : Platform) (e : Engine) (mode : Handle)
    (hmode : e.gm.active_mode_ = some mode) (hTPS : 0 < P.TICKS_PER_SECOND) :
    (¬ e.gm.ambient_emit_delay_ < e.sim_ticks →
      (Tick P e).trace = e.trace ++ [.FrontEnd_Tick, .ModeTick mode] ∧
      (Tick P e).gm = e.gm) ∧
    (e.gm.ambient_emit_delay_ < e.sim_ticks →
      ∃ (r jitter : Nat) (x y z : CFloat),
        (Tick P e).trace = e.trace ++ [.FrontEnd_Tick, .Rand r] ++
          playEvents P.TERRAIN_PIXEL_WIDTH e.gm.active_map_
            (e.gm.ambient_samples_ (r % P.MAX_AMBIENT_SAMPLES)) x y z ++
          [.Rand jitter, .ModeTick mode] ∧
        (Tick P e).gm = { e.gm with ambient_emit_delay_ :=
          (e.sim_ticks + P.TICKS_PER_SECOND + jitter % (7 * P.TICKS_PER_SECOND)) %
            UINT_MODULUS } ∧
        (e.sim_ticks + 8 * P.TICKS_PER_SECOND ≤ UINT_MODULUS →
          e.sim_ticks + P.TICKS_PER_SECOND ≤ (Tick P e).gm.ambient_emit_delay_ ∧
          (Tick P e).gm.ambient_emit_delay_ < e.sim_ticks + 8 * P.TICKS_PER_SECOND)) ∧
    ((Tick P e).trace.drop e.trace.length).countP Event.isPlayback ≤ 1 ∧
    ((Tick P e).trace.drop e.trace.length).countP Event.isModeTick = 1 := by
  have hplay : ∀ (w : Nat) (m s : Option Handle) (x y z : CFloat),
      (playEvents w m s x y z).countP Event.isPlayback ≤ 1 ∧
      (playEvents w m s x y z).countP Event.isModeTick = 0 := by
    intro w m s x y z
    cases s <;> simp [playEvents, Event.isPlayback, Event.isModeTick]
  by_cases hdue : e.gm.ambient_emit_delay_ < e.sim_ticks
  · obtain ⟨r, jitter, x, y, z, htr, hgm, -, -⟩ := Tick_due_spec P e mode hmode hdue
    have hp := hplay P.TERRAIN_PIXEL_WIDTH e.gm.active_map_
      (e.gm.ambient_samples_ (r % P.MAX_AMBIENT_SAMPLES)) x y z
    refine ⟨fun hnot => absurd hdue hnot, fun _ => ⟨r, jitter, x, y, z, htr, hgm, ?_⟩, ?_, ?_⟩
    · intro hfit
      rw [hgm]
      have hj : jitter % (7 * P.TICKS_PER_SECOND) < 7 * P.TICKS_PER_SECOND :=
        Nat.mod_lt _ (by omega)
      have hsmall : e.sim_ticks + P.TICKS_PER_SECOND + jitter % (7 * P.TICKS_PER_SECOND) <
          UINT_MODULUS := by omega
      simp only [Nat.mod_eq_of_lt hsmall]
      omega
    · rw [htr]
      simp only [List.append_assoc, List.drop_left, List.countP_append]
      simp [Event.isPlayback]
      exact hp.1
    · rw [htr]
      simp only [List.append_assoc, List.drop_left, List.countP_append, hp.2]
      simp [Event.isModeTick]
  · obtain ⟨htr, hgm, -, -⟩ := Tick_not_due_spec P e mode hmode hdue
    refine ⟨fun _ => ⟨htr, hgm⟩, fun h => absurd h hdue, ?_, ?_⟩
    · rw [htr]; simp [Event.isPlayback]
    · rw [htr]; simp [Event.isModeTick]

/-- The statement of C12 at `exampleSession` (tick 100, deadline 5, mode 2): the new
deadline is 221, between 125 and 300. -/
theorem Tick_ambient_schedule_witness :
    exampleSession.gm.active_mode_ = some 2 ∧
    0 < examplePlatform.TICKS_PER_SECOND ∧
    exampleSession.gm.ambient_emit_delay_ < exampleSession.sim_ticks ∧
    (Tick examplePlatform exampleSession).gm.ambient_emit_delay_ = 221 ∧
    ((Tick examplePlatform exampleSession).trace.drop
      exampleSession.trace.length).countP Event.isPlayback ≤ 1 ∧
    ((Tick examplePlatform exampleSession).trace.drop
      exampleSession.trace.length).countP Event.isModeTick = 1 :=
  have h := Tick_ambient_schedule examplePlatform exampleSession 2 rfl (by decide)
  ⟨rfl, by decide, by decide, by decide, h.2.2.1, h.2.2.2⟩

/-- C12 as stated fails when the tick arithmetic wraps: at the tick `2 ^ 32 - 1` with
25 ticks in a second, the new deadline is 120, below `t + TICKS_PER_SECOND`. -/
theorem Tick_deadline_wraps_at_last_tick :
    exampleLateTick.gm.active_mode_ = some 2 ∧
    exampleLateTick.sim_ticks = 2 ^ 32 - 1 ∧
    exampleLateTick.gm.ambient_emit_delay_ < exampleLateTick.sim_ticks ∧
    (Tick examplePlatform exampleLateTick).gm.ambient_emit_delay_ = 120 ∧
    ¬ (exampleLateTick.sim_ticks + examplePlatform.TICKS_PER_SECOND ≤
      (Tick examplePlatform exampleLateTick).gm.ambient_emit_delay_) := by
  decide

/-- C13: in every state, `UnloadMap` deletes the pointer of every sample slot, then
`active_mode`, then `active_map`, in that order, and leaves the manager, so these
three members, as it was. So after `UnloadMap` on a state with a mode, `Tick` still
ticks that mode; and after `UnloadMap` on a state with a map, a successful `LoadMap`
runs `DestroyActors`, `DestroyModels` and the deletion of that same map again. -/
theorem UnloadMap_deletes_and_keeps_pointers (P : Platform) (e : Engine) :
    (UnloadMap P e).trace = e.trace ++
      (List.range P.MAX_AMBIENT_SAMPLES).map (fun i => .DeleteSample (e.gm.ambient_samples_ i)) ++
      [.DeleteMode e.gm.active_mode_, .DeleteMap e.gm.active_map_] ∧
    (UnloadMap P e).gm = e.gm ∧
    (∀ mode : Handle, e.gm.active_mode_ = some mode →
      ∃ middle : List Event,
        (Tick P (UnloadMap P e)).trace =
          (UnloadMap P e).trace ++ .FrontEnd_Tick :: middle ++ [.ModeTick mode]) ∧
    (∀ (map : Handle) (name : String) (manifest : MapManifest),
      e.gm.active_map_ = some map → mapFind name e.gm.map_manifests_ = some manifest →
      ∃ (newMap : Handle) (rest : List Event),
        (LoadMap P (UnloadMap P e) name).trace = (UnloadMap P e).trace ++
          [.NewMap manifest newMap, .DestroyActors, .DestroyModels, .DeleteMap (some map),
            .StoreActiveMap (some newMap)] ++ rest) := by
  obtain ⟨htr, hgm, -, -⟩ := UnloadMap_spec P e
  refine ⟨htr, hgm, ?_, ?_⟩
  · intro mode hmode
    have hmode1 : (UnloadMap P e).gm.active_mode_ = some mode := by rw [hgm]; exact hmode
    by_cases hdue : (UnloadMap P e).gm.ambient_emit_delay_ < (UnloadMap P e).sim_ticks
    · obtain ⟨r, jitter, x, y, z, h1, -, -, -⟩ :=
        Tick_due_spec P (UnloadMap P e) mode hmode1 hdue
      exact ⟨.Rand r :: (playEvents P.TERRAIN_PIXEL_WIDTH (UnloadMap P e).gm.active_map_
        ((UnloadMap P e).gm.ambient_samples_ (r % P.MAX_AMBIENT_SAMPLES)) x y z ++
        [.Rand jitter]), by rw [h1]; simp⟩
    · exact ⟨[], by rw [(Tick_not_due_spec P (UnloadMap P e) mode hmode1 hdue).1]; simp⟩
  · intro map name manifest hmap hfound
    have hfound1 : mapFind name (UnloadMap P e).gm.map_manifests_ = some manifest := by
      rw [hgm]; exact hfound
    obtain ⟨samples, r, mode, -, h1, -, -, -⟩ :=
      LoadMap_found_spec P (UnloadMap P e) name manifest hfound1
    refine ⟨P.new_Map (UnloadMap P e).trace manifest,
      sampleEvents 0 (specSamplePaths manifest.time) samples ++
        [.Rand r, .NewMode mode, .StoreActiveMode (some mode), .StartRound mode,
          .FrontEnd_SetState_GAME], ?_⟩
    rw [h1, hgm, hmap]
    simp [teardownEvents]

/-- The statement of C13 at `exampleSession` (map 1, mode 2, samples 10 to 17): map 1
is deleted by `UnloadMap` and again by the `LoadMap` that follows, and mode 2 is ticked
after it was deleted. -/
theorem UnloadMap_deletes_and_keeps_pointers_witness :
    (UnloadMap examplePlatform exampleSession).trace =
      [.DeleteSample (some 10), .DeleteSample (some 11), .DeleteSample (some 12),
       .DeleteSample (some 13), .DeleteSample (some 14), .DeleteSample (some 15),
       .DeleteSample (some 16), .DeleteSample (some 17), .DeleteMode (some 2),
       .DeleteMap (some 1)] ∧
    (UnloadMap examplePlatform exampleSession).gm.active_map_ = some 1 ∧
    (UnloadMap examplePlatform exampleSession).gm.active_mode_ = some 2 ∧
    Event.ModeTick 2 ∈ (Tick examplePlatform (UnloadMap examplePlatform exampleSession)).trace ∧
    ((LoadMap examplePlatform (UnloadMap examplePlatform exampleSession) "a").trace.filter
      fun ev => ev == Event.DeleteMap (some 1)).length = 2 :=
  have h := UnloadMap_deletes_and_keeps_pointers examplePlatform exampleSession
  ⟨by decide, by rw [h.2.1]; rfl, by rw [h.2.1]; rfl, by decide, by decide⟩

end openhow
